import Mathlib

/-!
# Verification of the better-api validation / DI / documentation engine

This file gives a shallow embedding, in Lean 4, of the core engine of the
better-api repository: the schema normalizer (src/openapi/normalizer.ts),
the request-scoped dependency resolver (src/core/di.ts), the request
validation wrappers (src/core/api.ts collect-all variant, src/hono/api.ts
fail-fast variant, and the gated body reader of src/swagger.ts and the
parseRequestBody helper), the response validation block, route
registration, and the security derivation used by the document generator.

JavaScript runtime values are modelled by the inductive `Val`; zod schemas
by the small executable schema language `Schema` together with `safeParse`
(validation returns either decoded data or a list of issues, mirroring the
zod safeParse contract used by the engine).  Stateful request-scope
memoization is modelled by explicit state passing over `Scope`.
-/

namespace BetterApi

/-- A literal used as a schema default (zod `.default(...)`). -/
inductive Lit where
  | lStr (s : String)
  | lNum (n : Int)
  | lBool (b : Bool)

/-- A small executable model of the zod schemas the engine manipulates:
strings, numbers, booleans, minimum-length strings, defaults and object
schemas with per-key sub-schemas.  `anySch` accepts anything unchanged. -/
inductive Schema where
  | anySch
  | strSch
  | numSch
  | boolSch
  | strMinSch (n : Nat)
  | defaultSch (d : Lit) (inner : Schema)
  | objSch (fields : List (String × Schema))

/-- JavaScript-like runtime values.  `vSchema` embeds a zod schema object
(the TypeScript guard is a structural check for a `_zod` marker key);
`vUndef` is the JavaScript `undefined`. -/
inductive Val where
  | vNull
  | vUndef
  | vBool (b : Bool)
  | vNum (n : Int)
  | vStr (s : String)
  | vArr (xs : List Val)
  | vObj (fields : List (String × Val))
  | vSchema (s : Schema)

def Lit.toVal : Lit → Val
  | .lStr s => .vStr s
  | .lNum n => .vNum n
  | .lBool b => .vBool b

/-- Property access on a JS object: first binding wins, missing keys give
`undefined`. -/
def getField : List (String × Val) → String → Val
  | [], _ => .vUndef
  | (k, v) :: rest, key => if k = key then v else getField rest key

/-- `obj?.k` optional-chaining access: non-objects give `undefined`. -/
def objGet (v : Val) (key : String) : Val :=
  match v with
  | .vObj fields => getField fields key
  | _ => Val.vUndef

/-- The `k in obj` test used by the normalizer guards. -/
def hasKeyB (v : Val) (key : String) : Bool :=
  match v with
  | .vObj fields => fields.any (fun p => p.1 == key)
  | _ => false

def isUndef : Val → Bool
  | .vUndef => true
  | _ => false

/-- JavaScript truthiness: `null`, `undefined`, `false`, `0` and the empty
string are falsy; objects, arrays and schemas are truthy. -/
def jsFalsy : Val → Bool
  | .vNull => true
  | .vUndef => true
  | .vBool b => !b
  | .vNum n => n == 0
  | .vStr s => s == ""
  | _ => false

/-- One structured validation issue: a machine code, a path within the
value, and a human message (the shape of a zod issue consumed by the
engine). -/
structure Issue where
  code : String
  path : List String
  message : String
deriving DecidableEq

def Issue.toVal (i : Issue) : Val :=
  .vObj [("code", .vStr i.code),
         ("path", .vArr (i.path.map .vStr)),
         ("message", .vStr i.message)]

def prefixIssue (k : String) (i : Issue) : Issue :=
  { i with path := k :: i.path }

def typeIssue (expected : String) : Issue :=
  { code := "invalid_type", path := [], message := "expected " ++ expected }

/-- Executable model of `schema.safeParseAsync`: success carries the
decoded output (with defaults applied and unknown object keys stripped, as
zod does); failure carries the collected issue list for every failing
sub-field. -/
def safeParse : Schema → Val → Except (List Issue) Val
  | .anySch, v => .ok v
  | .strSch, v =>
    match v with
    | .vStr s => .ok (.vStr s)
    | _ => .error [typeIssue "string"]
  | .numSch, v =>
    match v with
    | .vNum n => .ok (.vNum n)
    | _ => .error [typeIssue "number"]
  | .boolSch, v =>
    match v with
    | .vBool b => .ok (.vBool b)
    | _ => .error [typeIssue "boolean"]
  | .strMinSch n, v =>
    match v with
    | .vStr s =>
      if n ≤ s.length then .ok (.vStr s)
      else .error [{ code := "too_small", path := [],
                     message := "string too short" }]
    | _ => .error [typeIssue "string"]
  | .defaultSch d inner, v =>
    match v with
    | .vUndef => .ok d.toVal
    | other => safeParse inner other
  | .objSch fields, v =>
    match v with
    | .vObj fs =>
      match parseFields fields fs with
      | (([] : List Issue), out) => .ok (.vObj out)
      | (issues, _) => .error issues
    | _ => .error [typeIssue "object"]
where
  /-- Validate each declared key of an object schema against the matching
  property of the input object, collecting all issues. -/
  parseFields : List (String × Schema) → List (String × Val) →
      List Issue × List (String × Val)
  | [], _ => ([], [])
  | (k, sch) :: rest, fs =>
    let r := safeParse sch (getField fs k)
    let (issues, out) := parseFields rest fs
    match r with
    | .ok v => (issues, (k, v) :: out)
    | .error es => (es.map (prefixIssue k) ++ issues, out)

/-! ## Numeric object keys

The normalizer's route-responses branch converts each enumerated status key
with JavaScript `Number(statusCode)` and stores the result under the
canonical decimal rendering of that number (`String(...)` at lookup time).
We model this composition on integer-literal keys: a digit string parses to
its value (leading zeros tolerated, as `Number` does) and renders back in
canonical form; any other key maps to the string rendering of `NaN`. -/

/-- Decimal digit character for `d < 10`. -/
def digitChar (d : Nat) : Char := Char.ofNat (48 + d)

/-- Little-endian decimal digits of `n` (empty for `0`), written with
fuel-based structural recursion so that it computes by kernel reduction. -/
def natDigitsAux : Nat → Nat → List Nat
  | 0, _ => []
  | _ + 1, 0 => []
  | fuel + 1, Nat.succ m =>
    ((m + 1) % 10) :: natDigitsAux fuel ((m + 1) / 10)

def natDigitsRev (n : Nat) : List Nat := natDigitsAux n n

/-- Canonical decimal rendering of a natural number (JS `String(n)`). -/
def natKey (n : Nat) : String :=
  if n = 0 then "0" else String.mk ((natDigitsRev n).reverse.map digitChar)

/-- Parse a key as JS `Number` does on integer literals: a nonempty string
of decimal digits yields its value, anything else is not a number. -/
def keyToNat? (s : String) : Option Nat :=
  match s.data with
  | [] => none
  | cs =>
    if cs.all (fun c => 48 ≤ c.toNat && c.toNat ≤ 57) then
      some (cs.foldl (fun a c => a * 10 + (c.toNat - 48)) 0)
    else none

/-- The key transform `String(Number(k))` applied by the route-responses
normalization branch. -/
def jsNumKey (s : String) : String :=
  match keyToNat? s with
  | some n => natKey n
  | none => "NaN"

/-! ## Schema normalizer (src/openapi/normalizer.ts)

`normalizeResponsesSchema` flattens the three accepted response-declaration
shapes (bare schema; schema plus inline metadata; full content object) and
status maps thereof into one canonical form.  The TypeScript guards are
structural key-presence checks applied in a fixed order; we mirror them on
`Val`.  `none` models the `undefined` fall-through result. -/

/-- Guard `isZodType`: the value is a zod schema object. -/
def isZodTypeB (v : Val) : Bool :=
  match v with
  | .vSchema _ => true
  | _ => false

/-- Guard `isSimpleZodOpenApiResponseObject`: a non-null object carrying a
`schema` key. -/
def isSimpleRespB (v : Val) : Bool :=
  match v with
  | .vObj _ => hasKeyB v "schema"
  | _ => false

/-- Guard `isZodOpenApiResponseObject`: a non-null object carrying a
`content` key. -/
def isRespObjB (v : Val) : Bool :=
  match v with
  | .vObj _ => hasKeyB v "content"
  | _ => false

/-- Guard `isRouteResponses`: a non-null object some value of which matches
one of the three response shapes. -/
def isRouteResponsesB (v : Val) : Bool :=
  match v with
  | .vObj fields =>
    fields.any (fun p => isZodTypeB p.2 || isSimpleRespB p.2 || isRespObjB p.2)
  | _ => false

/-- The destructuring rest `{schema, links, description, headers, ...rest}`
of a simple response object. -/
def simpleRest (fields : List (String × Val)) : List (String × Val) :=
  fields.filter (fun p =>
    !(p.1 == "schema" || p.1 == "links" || p.1 == "description" ||
      p.1 == "headers"))

/-- Rebuild one simple response object `{schema, ...}` into its canonical
`{links, description, headers, content: ...}` form. -/
def unwrapSimple (fields : List (String × Val)) : Val :=
  .vObj [("links", getField fields "links"),
         ("description", getField fields "description"),
         ("headers", getField fields "headers"),
         ("content", .vObj [("application/json",
            .vObj (("schema", getField fields "schema") :: simpleRest fields))])]

/-- Normalize one entry of a status map, mirroring the inner branch chain
of the route-responses case; entries matching no shape are dropped. -/
def normalizeEntry (p : String × Val) : Option (String × Val) :=
  let status := jsNumKey p.1
  if isZodTypeB p.2 then
    some (status, .vObj [("description", .vStr ""),
      ("content", .vObj [("application/json", .vObj [("schema", p.2)])])])
  else if isSimpleRespB p.2 then
    match p.2 with
    | .vObj fs => some (status, unwrapSimple fs)
    | _ => none
  else if isRespObjB p.2 then
    some (status, p.2)
  else none

/-- `normalizeResponsesSchema` (src/openapi/normalizer.ts lines 42-113):
the four guarded branches in source order, with `Number(statusCode)` key
conversion in the status-map branch. -/
def normalizeResponsesSchema (responses : Val) : Option Val :=
  if isZodTypeB responses then
    some (.vObj [("200", .vObj [("content",
      .vObj [("application/json", .vObj [("schema", responses)])])])])
  else if isSimpleRespB responses then
    match responses with
    | .vObj fields => some (.vObj [("200", unwrapSimple fields)])
    | _ => none
  else if isRespObjB responses then
    some (.vObj [("200", responses)])
  else if isRouteResponsesB responses then
    match responses with
    | .vObj fields => some (.vObj (fields.filterMap normalizeEntry))
    | _ => none
  else none

/-- A response spec already in canonical form: a nonempty map whose keys
are fixed under the status-key conversion and whose values are content
objects that carry no top-level `schema` key (so every guard passes them
through unchanged). -/
def isCanonicalResponsesB (v : Val) : Bool :=
  match v with
  | .vObj fields =>
    !fields.isEmpty && fields.all (fun p =>
      jsNumKey p.1 == p.1 && isRespObjB p.2 && !hasKeyB p.2 "schema")
  | _ => false

/-- Canonicity of one normalized status-map entry. -/
def canonEntryB (p : String × Val) : Bool :=
  jsNumKey p.1 == p.1 && isRespObjB p.2 && !hasKeyB p.2 "schema"

/-! ## Dependency resolver (src/core/di.ts)

Providers are functions from a resolution context to a value; we name them
and close the call graph into an environment.  A provider body either
yields a direct result, requests a list of other providers and combines
their values, or is the `requiresAuth` authorization wrapper around an
inner principal provider.  `Scope` is the per-request `AsyncLocalStorage`
map from provider identity to resolved value plus an event log of provider
body entries (used to count evaluations).  Resolution is sequential (one
cooperative unit of work) and fuel-indexed so that it is structurally
recursive and computes by kernel reduction. -/

abbrev PName := String

/-- The shape of a provider function body. -/
inductive ProviderDef where
  | base (result : Except String Val)
  | combine (deps : List PName) (f : List Val → Except String Val)
  | authWrapped (scheme : String) (scopes : Option (List String)) (inner : PName)

/-- The provider registry: name to definition. -/
abbrev Env := PName → Option ProviderDef

/-- The per-request scope: the memoization store backed by the request's
`Map`, plus the ordered log of provider bodies that were entered. -/
structure Scope where
  store : List (PName × Val)
  evals : List PName

def emptyScope : Scope := { store := [], evals := [] }

/-- `Map.get`: a missing key reads as `undefined`. -/
def storeGet : List (PName × Val) → PName → Val
  | [], _ => .vUndef
  | (k, v) :: rest, p => if k = p then v else storeGet rest p

/-- `Map.set`: overwrite an existing binding or append a new one. -/
def storeSet : List (PName × Val) → PName → Val → List (PName × Val)
  | [], p, v => [(p, v)]
  | (k, w) :: rest, p, v =>
    if k = p then (p, v) :: rest else (k, w) :: storeSet rest p v

/-- The `user.scopes` extraction of `requiresAuth`: an array property is
used as the granted scope list, anything else grants nothing. -/
def userScopes (user : Val) : List Val :=
  match objGet user "scopes" with
  | .vArr xs => xs
  | _ => []

/-- The scope check of `requiresAuth`: every required scope must occur (by
strict equality, which for a string scope means an identical string
element) in the principal's scope array. -/
def missingScopes (required : List String) (user : Val) : List String :=
  required.filter (fun s =>
    !((userScopes user).any (fun u =>
      match u with
      | .vStr t => t == s
      | _ => false)))

/-- The authorization checks of the `requiresAuth` wrapper body, applied to
the resolved inner principal (src/core/di.ts lines 23-39): a falsy
principal rejects with `unauthorized`; with a nonempty required scope list,
any scope missing from the principal's granted scopes rejects with
`forbidden`; otherwise the principal is returned. -/
def authCheck (scopes : Option (List String)) (user : Val) : Except String Val :=
  if jsFalsy user then .error "unauthorized"
  else
    match scopes with
    | some required =>
      if required.length > 0 then
        if (missingScopes required user).length > 0 then .error "forbidden"
        else .ok user
      else .ok user
    | none => .ok user

mutual

/-- `resolveProvider` (src/core/di.ts lines 59-74) inside an active request
scope: a cached value other than `undefined` is returned as-is; otherwise
the provider body runs and, on success only, its value is stored under the
provider's identity. -/
def resolveProvider : Nat → Env → PName → Scope → Except String Val × Scope
  | 0, _, _, s => (.error "out of fuel", s)
  | fuel + 1, env, p, s =>
    let cached := storeGet s.store p
    if isUndef cached then
      match env p with
      | none => (.error "unknown provider", s)
      | some pd =>
        let res := evalProviderBody fuel env pd { s with evals := s.evals ++ [p] }
        match res.1 with
        | .ok v => (.ok v, { res.2 with store := storeSet res.2.store p v })
        | .error e => (.error e, res.2)
    else
      (.ok cached, s)

/-- Run one provider body against the resolution context bound to the
current scope (`ctx.get` recursively resolves through the same scope). -/
def evalProviderBody : Nat → Env → ProviderDef → Scope →
    Except String Val × Scope
  | 0, _, _, s => (.error "out of fuel", s)
  | fuel + 1, env, pd, s =>
    match pd with
    | .base r => (r, s)
    | .combine deps f =>
      let res := resolveEach fuel env deps s
      (res.1.bind f, res.2)
    | .authWrapped _ scopes inner =>
      let res := resolveProvider fuel env inner s
      (match res.1 with
       | .ok user => authCheck scopes user
       | .error e => .error e, res.2)

/-- Resolve a list of requested providers in order through one scope. -/
def resolveEach : Nat → Env → List PName → Scope →
    Except String (List Val) × Scope
  | 0, _, _, s => (.error "out of fuel", s)
  | _ + 1, _, [], s => (.ok [], s)
  | fuel + 1, env, p :: ps, s =>
    let r1 := resolveProvider fuel env p s
    match r1.1 with
    | .error e => (.error e, r1.2)
    | .ok v =>
      let r2 := resolveEach fuel env ps r1.2
      (r2.1.map (fun vs => v :: vs), r2.2)

end

/-- `runWithRequestScope` (src/core/di.ts lines 55-57): run a computation
against a fresh, empty memoization map. -/
def runWithRequestScope {α : Type} (fn : Scope → α × Scope) : α × Scope :=
  fn emptyScope

/-! ## Request model and field-group validation

The transport (hono) supplies per-request accessors: matched path
parameters, the multi-value query map, headers, parsed cookies, a JSON
body reader, a form-body parser, and the content length.  `Request`
bundles what those accessors return for one request.  -/

structure Request where
  params : List (String × String)
  queries : List (String × List String)
  headers : List (String × String)
  cookies : List (String × String)
  contentLengthHeader : Option Nat
  bodyBytes : Nat
  jsonBody : Val
  formBody : List (String × Val)

def strMapToVal (m : List (String × String)) : Val :=
  .vObj (m.map (fun p => (p.1, .vStr p.2)))

/-- The query collapse of the wrappers (src/core/api.ts lines 216-222):
`values.length === 1 ? values[0] : values` applied to every entry of the
multi-value query map, before any validation. -/
def collapseQuery (queries : List (String × List String)) : List (String × Val) :=
  queries.map (fun p =>
    match p.2 with
    | [v] => (p.1, Val.vStr v)
    | vs => (p.1, Val.vArr (vs.map Val.vStr)))

def rawQueryVal (req : Request) : Val := .vObj (collapseQuery req.queries)

def paramsInput (req : Request) : Val := strMapToVal req.params

def headersInput (req : Request) : Val := strMapToVal req.headers

def cookiesInput (req : Request) : Val := strMapToVal req.cookies

def formInput (req : Request) : Val := .vObj req.formBody

/-- `rawForm.file` for the single-file group. -/
def fileInput (req : Request) : Val := getField req.formBody "file"

/-- `Array.isArray(rawForm.files) ? rawForm.files : [rawForm.files]`. -/
def filesInput (req : Request) : Val :=
  match getField req.formBody "files" with
  | .vArr xs => .vArr xs
  | v => .vArr [v]

/-- JavaScript object spread `{...a, ...b}`: the keys of `a` in order with
values overridden by `b` where both are present, followed by the keys only
`b` has.  Non-object operands contribute no fields. -/
def jsSpread (a b : Val) : Val :=
  let af := match a with | .vObj fs => fs | _ => []
  let bf := match b with | .vObj fs => fs | _ => []
  .vObj (af.map (fun p =>
      (p.1, if hasKeyB (.vObj bf) p.1 then getField bf p.1 else p.2))
    ++ bf.filter (fun p => !hasKeyB (.vObj af) p.1))

/-- The per-route schema configuration captured by a registered wrapper,
one optional schema per field group, plus the normalized response spec the
response validator consults. -/
structure WrapConfig where
  paramsS : Option Schema
  queryS : Option Schema
  headersS : Option Schema
  cookiesS : Option Schema
  bodyS : Option Schema
  formS : Option Schema
  fileS : Option Schema
  filesS : Option Schema
  responses : Option Val

/-- Accumulated wrapper state: the `validationErrors` map under
construction (group name to issue list, in group order), the groups whose
validation ran, and the transport reads performed. -/
structure ValState where
  errors : List (String × List Issue)
  validated : List String
  reads : List String

def initValState : ValState := { errors := [], validated := [], reads := [] }

/-- One collect-all validation block of the core wrapper: skipped when no
schema is declared (the decoded slot keeps its default), otherwise the
group is read (`rds`) and validated, recording a failure under the group's
name without aborting. -/
def valStep (name : String) (schOpt : Option Schema) (input : Val)
    (dflt : Val) (rds : List String) (st : ValState) : ValState × Val :=
  match schOpt with
  | none => (st, dflt)
  | some sch =>
    let st1 := { st with validated := st.validated ++ [name],
                         reads := st.reads ++ rds }
    match safeParse sch input with
    | .ok d => (st1, d)
    | .error issues => ({ st1 with errors := st1.errors ++ [(name, issues)] }, dflt)

/-- The decoded field groups handed to the route handler. -/
structure Decoded where
  params : Val
  query : Val
  headers : Val
  cookies : Val
  body : Val
  form : Val
  file : Val
  files : Val

/-- The collect-all validation pipeline of `registerRoute` in
src/core/api.ts (lines 200-326): every declared group is validated in
declaration order regardless of earlier failures; the body-like groups are
read from the transport whenever their schema is declared (no
content-length gate in this variant). -/
def validateCore (cfg : WrapConfig) (req : Request) : ValState × Decoded :=
  let r1 := valStep "params" cfg.paramsS (paramsInput req) (paramsInput req) [] initValState
  let r2 := valStep "query" cfg.queryS (rawQueryVal req) (rawQueryVal req) [] r1.1
  let r3 := valStep "headers" cfg.headersS (headersInput req) (headersInput req) [] r2.1
  let r4 := valStep "cookies" cfg.cookiesS (cookiesInput req) (cookiesInput req) [] r3.1
  let r5 := valStep "body" cfg.bodyS req.jsonBody Val.vUndef ["json"] r4.1
  let r6 := valStep "form" cfg.formS (formInput req) Val.vUndef ["parseBody"] r5.1
  let r7 := valStep "file" cfg.fileS (fileInput req) Val.vUndef ["parseBody"] r6.1
  let r8 := valStep "files" cfg.filesS (filesInput req) Val.vUndef ["parseBody"] r7.1
  (r8.1,
   { params := r1.2, query := r2.2, headers := r3.2, cookies := r4.2,
     body := r5.2, form := r6.2, file := r7.2, files := r8.2 })

/-- One fail-fast validation block of the hono wrapper
(src/hono/api.ts lines 158-266): the first invalid group throws a 400
immediately, so later groups are never validated.  The log records which
groups were validated before the outcome. -/
def honoStep (name : String) (schOpt : Option Schema) (input : Val)
    (dflt : Val) (rds : List String) (st : ValState) :
    Except (ValState × String × List Issue) (ValState × Val) :=
  match schOpt with
  | none => .ok (st, dflt)
  | some sch =>
    let st1 := { st with validated := st.validated ++ [name],
                         reads := st.reads ++ rds }
    match safeParse sch input with
    | .ok d => .ok (st1, d)
    | .error issues => .error (st1, name, issues)

/-- The fail-fast validation pipeline of `registerRoute` in
src/hono/api.ts; the successfully validated headers are merged over the
raw header map (`{...rawHeaders, ...data}`). -/
def validateHono (cfg : WrapConfig) (req : Request) :
    Except (ValState × String × List Issue) (ValState × Decoded) := do
  let (s1, p) ← honoStep "params" cfg.paramsS (paramsInput req) (paramsInput req) [] initValState
  let (s2, q) ← honoStep "query" cfg.queryS (rawQueryVal req) (rawQueryVal req) [] s1
  let (s3, h) ← honoStep "headers" cfg.headersS (headersInput req) (headersInput req) [] s2
  let (s4, c) ← honoStep "cookies" cfg.cookiesS (cookiesInput req) (cookiesInput req) [] s3
  let (s5, b) ← honoStep "body" cfg.bodyS req.jsonBody Val.vUndef ["json"] s4
  let (s6, fo) ← honoStep "form" cfg.formS (formInput req) Val.vUndef ["parseBody"] s5
  let (s7, fi) ← honoStep "file" cfg.fileS (fileInput req) Val.vUndef ["parseBody"] s6
  let (s8, fs) ← honoStep "files" cfg.filesS (filesInput req) Val.vUndef ["parseBody"] s7
  let mergedHeaders :=
    match cfg.headersS with
    | some _ => jsSpread (headersInput req) h
    | none => h
  .ok (s8,
   { params := p, query := q, headers := mergedHeaders, cookies := c,
     body := b, form := fo, file := fi, files := fs })

/-! ## Response validation (src/core/api.ts lines 361-395) -/

/-- What a route handler can return: a plain value, a `JsonResponse` built
through the context helper, or some other prebuilt `Response` (passed
through unchanged, never validated). -/
inductive HandlerResult where
  | plainV (v : Val)
  | jsonResp (v : Val) (status : Nat)
  | rawResp (tag : String)

/-- `statusCode`: a `JsonResponse` keeps its status, a plain value implies
200. -/
def resultStatus : HandlerResult → Nat
  | .plainV _ => 200
  | .jsonResp _ st => st
  | .rawResp _ => 200

/-- `responseData`: the JSON payload of a `JsonResponse`, or the plain
value itself. -/
def resultData : HandlerResult → Val
  | .plainV v => v
  | .jsonResp v _ => v
  | .rawResp _ => Val.vUndef

/-- `getValidationSchema` (src/core/api.ts lines 788-794):
`responses[statusCode]?.content?.['application/json']?.schema`, kept only
when it is a zod schema. -/
def getValidationSchema (responses : Val) (statusKey : String) : Option Schema :=
  match objGet (objGet (objGet (objGet responses statusKey) "content")
      "application/json") "schema" with
  | .vSchema sch => some sch
  | _ => none

/-- What the wrapper ultimately returns to the transport. -/
inductive Sent where
  | jsonSent (body : Val) (status : Nat)
  | passthrough (r : HandlerResult)

/-- The response validation block: with no normalized spec, or for a
non-JSON prebuilt response, or for a status with no application/json zod
schema, the result passes through; otherwise the decoded parse output is
re-serialized with the produced status, and a parse failure raises the
issue list as a server-side 500. -/
def responseBlock (responses : Option Val) (result : HandlerResult) :
    Except (List Issue) Sent :=
  match responses with
  | none => .ok (.passthrough result)
  | some resps =>
    match result with
    | .rawResp t => .ok (.passthrough (.rawResp t))
    | other =>
      match getValidationSchema resps (natKey (resultStatus other)) with
      | none => .ok (.passthrough other)
      | some sch =>
        match safeParse sch (resultData other) with
        | .ok d => .ok (.jsonSent d (resultStatus other))
        | .error issues => .error issues

/-! ## Full request run -/

/-- The error values thrown by the wrappers: the collect-all 400 carrying
the whole `validationErrors` map (`HTTPException(400, {res: JsonResponse
(validationErrors, 400)})`), the fail-fast 400 of the hono variant
carrying only the first failing group, the response-validation 500, and an
uncaught plain `Error`. -/
inductive Thrown where
  | badRequest (errs : List (String × List Issue))
  | failFast (group : String) (issues : List Issue)
  | internal (issues : List Issue)
  | plainErr (msg : String)

def Thrown.status : Thrown → Nat
  | .badRequest _ => 400
  | .failFast _ _ => 400
  | .internal _ => 500
  | .plainErr _ => 500

/-- The context the handler receives: decoded groups plus the dependency
map, whose entries are the (already started, not yet awaited) resolution
outcomes. -/
structure HandlerCtx where
  decoded : Decoded
  deps : List (String × Except String Val)

/-- A handler either produces a result or throws (for example by awaiting
a rejected dependency, which re-raises its rejection). -/
abbrev HandlerFn := HandlerCtx → Except String HandlerResult

/-- The dependencies block (src/core/api.ts lines 329-344): the `.map`
loop starts every top-level resolution in one synchronous turn without
awaiting any of them, and `store.set` (src/core/di.ts line 70) runs only
after `await provider(ctx)` -- a continuation deferred to the microtask
queue -- so no `store.set` from this turn lands before the loop finishes:
every top-level resolution reads the turn-start store.  (Within a single
resolution chain `resolveProvider` still threads its own completed
writes, matching the sequential awaits inside one provider body; writes
of sibling chains, which JavaScript may expose in later microtask phases,
are not shared -- no theorem relies on such sharing.)  The handler gets
the outcomes unawaited; the returned scope carries the full body-entry
log, with the store left at its turn-start value, which the wrapper never
reads again. -/
def resolveDeps (fuel : Nat) (env : Env) :
    List (String × PName) → Scope → List (String × Except String Val) × Scope
  | [], s => ([], s)
  | (k, p) :: rest, s =>
    let r := resolveProvider fuel env p s
    let others := resolveDeps fuel env rest
      { store := s.store, evals := r.2.evals }
    ((k, r.1) :: others.1, others.2)

/-- Everything observable about one request run. -/
structure RunResult where
  outcome : Except Thrown Sent
  handlerRan : Bool
  validated : List String
  reads : List String
  evals : List PName

/-- The full collect-all wrapper (src/core/api.ts lines 198-397): validate
every declared group, throw a 400 with the aggregated map if any failed,
otherwise start dependency resolution in a fresh request scope, run the
handler, and validate its result. -/
def handlerOutcome (responses : Option Val)
    (hres : Except String HandlerResult) : Except Thrown Sent :=
  match hres with
  | .error msg => .error (.plainErr msg)
  | .ok result =>
    match responseBlock responses result with
    | .ok sent => .ok sent
    | .error issues => .error (.internal issues)

def runCore (cfg : WrapConfig) (deps : List (String × PName)) (env : Env)
    (fuel : Nat) (handler : HandlerFn) (req : Request) : RunResult :=
  let v := validateCore cfg req
  if v.1.errors.isEmpty then
    let d := resolveDeps fuel env deps emptyScope
    { outcome := handlerOutcome cfg.responses
        (handler { decoded := v.2, deps := d.1 }),
      handlerRan := true,
      validated := v.1.validated, reads := v.1.reads, evals := d.2.evals }
  else
    { outcome := .error (.badRequest v.1.errors), handlerRan := false,
      validated := v.1.validated, reads := v.1.reads, evals := [] }

/-- The full fail-fast wrapper (src/hono/api.ts lines 152-345): identical
to the collect-all wrapper except that the first invalid group throws
immediately, before any later group is validated. -/
def runHono (cfg : WrapConfig) (deps : List (String × PName)) (env : Env)
    (fuel : Nat) (handler : HandlerFn) (req : Request) : RunResult :=
  match validateHono cfg req with
  | .error (st, g, issues) =>
    { outcome := .error (.failFast g issues), handlerRan := false,
      validated := st.validated, reads := st.reads, evals := [] }
  | .ok (st, dec) =>
    let d := resolveDeps fuel env deps emptyScope
    { outcome := handlerOutcome cfg.responses
        (handler { decoded := dec, deps := d.1 }),
      handlerRan := true,
      validated := st.validated, reads := st.reads, evals := d.2.evals }

def errorsToVal (errs : List (String × List Issue)) : Val :=
  .vObj (errs.map (fun p => (p.1, .vArr (p.2.map Issue.toVal))))

structure HttpResponse where
  status : Nat
  contentType : String
  body : Val

/-- How each thrown error reaches the client: the collect-all 400 carries
the aggregated map as its JSON response body; the fail-fast and internal
errors surface as plain-text status responses; an uncaught plain `Error`
falls back to the generic 500 of the `onError` handler. -/
def surfaceThrown : Thrown → HttpResponse
  | .badRequest errs =>
    { status := 400, contentType := "application/json", body := errorsToVal errs }
  | .failFast _ _ =>
    { status := 400, contentType := "text/plain", body := .vStr "Bad Request" }
  | .internal _ =>
    { status := 500, contentType := "text/plain",
      body := .vStr "Internal Server Error" }
  | .plainErr _ =>
    { status := 500, contentType := "application/json",
      body := .vObj [("message", .vStr "Internal Server Error")] }

def finalResponse (rr : RunResult) : HttpResponse :=
  match rr.outcome with
  | .error t => surfaceThrown t
  | .ok (.jsonSent body status) =>
    { status := status, contentType := "application/json", body := body }
  | .ok (.passthrough r) =>
    { status := resultStatus r, contentType := "passthrough", body := resultData r }

/-! ## Gated body reading (src/swagger.ts lines 547-646, parseRequestBody) -/

/-- A normalized request-body spec: `{required, content: media-type →
{schema, ...}}`, as produced by `normalizeBodySchema` and friends. -/
structure NormRequestBody where
  required : Bool
  content : List (String × Val)

/-- `getRequestBodyValidationSchema`: the first media type in the probe
list whose content entry carries a zod schema. -/
def getRequestBodyValidationSchema (rb : NormRequestBody) :
    List String → Option Schema
  | [] => none
  | mt :: rest =>
    match objGet (getField rb.content mt) "schema" with
    | .vSchema sch => some sch
    | _ => getRequestBodyValidationSchema rb rest

/-- The media types probed per body kind. -/
def mediaTypesFor (contentType : String) : List String :=
  if contentType = "json" then ["application/json"]
  else if contentType = "form" then
    ["multipart/form-data", "application/x-www-form-urlencoded"]
  else ["multipart/form-data"]

/-- `Number(c.req.header('content-length') ?? (await c.req.arrayBuffer())
.byteLength)`: the header when present, otherwise the raw body is buffered
to measure it (a transport read, recorded). -/
def bodyLengthOf (req : Request) : Nat × List String :=
  match req.contentLengthHeader with
  | some n => (n, [])
  | none => (req.bodyBytes, ["arrayBuffer"])

/-- The raw payload each body kind reads from the transport. -/
def rawBodyFor (req : Request) (contentType : String) : Val :=
  if contentType = "json" then req.jsonBody
  else if contentType = "form" then formInput req
  else if contentType = "file" then fileInput req
  else filesInput req

/-- The outcome of the gated reader: `none` models the `null` return (the
group neither read nor validated), and the read log records transport
consumption. -/
structure ParseAttempt where
  result : Option (Except (List Issue) Val)
  reads : List String

/-- `parseRequestBody` (src/unnamed/part_008 lines 56-103): without a
declared spec nothing happens; otherwise the body is read and validated
only when a schema is found for the media types AND the content length is
positive or the body is marked required. -/
def parseRequestBody (req : Request) (contentType : String)
    (requestBody : Option NormRequestBody) : ParseAttempt :=
  match requestBody with
  | none => { result := none, reads := [] }
  | some rb =>
    let vs := getRequestBodyValidationSchema rb (mediaTypesFor contentType)
    let len := bodyLengthOf req
    match vs with
    | some sch =>
      if len.1 > 0 || rb.required then
        { result := some (safeParse sch (rawBodyFor req contentType)),
          reads := len.2 ++
            [if contentType = "json" then "json" else "parseBody"] }
      else { result := none, reads := len.2 }
    | none => { result := none, reads := len.2 }

/-! ## Route registration and document synthesis (src/core/api.ts lines
155-196, src/core/openapi.ts, src/plugins/rate-limit.ts lines 341-383,
src/unnamed/part_010) -/

/-- The route descriptor appended to the global route registry by
`registerOpenApiRoute` / `addRouteSchema`. -/
structure RouteDescriptor where
  path : String
  method : String
  responses : Option Val

/-- What `registerRoute` produces for one route: the registry entry and
the normalized response spec captured by the wrapper closure for response
validation. -/
structure RegisterOutcome where
  descriptor : RouteDescriptor
  wrapperResponses : Option Val

/-- The registration-time normalization of `registerRoute`
(src/swagger.ts lines 423-469): the response spec is normalized once and
that single object is both stored in the registry and closed over by the
request-time wrapper. -/
def registerRoute (path method : String) (responsesOpt : Option Val) :
    RegisterOutcome :=
  let responses := responsesOpt.bind normalizeResponsesSchema
  { descriptor := { path := path, method := method, responses := responses },
    wrapperResponses := responses }

/-- `http.STATUS_CODES[statusCode]`, modelled for the codes the engine
declares by default. -/
def statusReason (k : String) : Val :=
  if k = "200" then .vStr "OK"
  else if k = "400" then .vStr "Bad Request"
  else if k = "401" then .vStr "Unauthorized"
  else if k = "403" then .vStr "Forbidden"
  else if k = "404" then .vStr "Not Found"
  else if k = "500" then .vStr "Internal Server Error"
  else Val.vUndef

/-- JavaScript `a || b`. -/
def orFalsy (a b : Val) : Val := if jsFalsy a then b else a

/-- The response merge of the document generator (src/core/openapi.ts
lines 165-183): route-level entries override the normalized global
defaults at the same status; each merged entry is emitted with its
description (backfilled with the standard reason phrase) and its content
object taken verbatim. -/
def docMergedResponses (globalResponses : Val) (route : RouteDescriptor) : Val :=
  match route.responses with
  | none => globalResponses
  | some r => jsSpread globalResponses r

def buildDocResponses (merged : Val) : Val :=
  match merged with
  | .vObj fields =>
    .vObj (fields.map (fun p => (p.1, Val.vObj
      [("description", orFalsy (objGet p.2 "description") (statusReason p.1)),
       ("content", objGet p.2 "content")])))
  | v => v

/-! ## Security derivation (src/core/di.ts requiresAuth tag,
src/plugins/rate-limit.ts derivedSecurity, src/unnamed/part_010) -/

/-- The `kSecurityMeta` tag attached by `requiresAuth`. -/
structure SecMeta where
  scheme : String
  scopes : Option (List String)

/-- Read the tag off a provider: only authorization-wrapped providers
carry one. -/
def providerMeta : ProviderDef → Option SecMeta
  | .authWrapped scheme scopes _ => some { scheme := scheme, scopes := scopes }
  | _ => none

/-- One entry of an OpenAPI security requirement:
`{ scheme: scopes }`. -/
structure SecurityReq where
  scheme : String
  scopes : List String

/-- `derivedSecurity` (src/plugins/rate-limit.ts lines 342-361): collect
`{[meta.scheme]: meta.scopes ?? []}` for every dependency provider whose
tag names a (truthy) scheme; an empty collection derives nothing. -/
def deriveSecurity (deps : List (String × ProviderDef)) :
    Option (List SecurityReq) :=
  let reqs := deps.filterMap (fun d =>
    (providerMeta d.2).bind (fun m =>
      if m.scheme = "" then none
      else some ({ scheme := m.scheme, scopes := m.scopes.getD [] } : SecurityReq)))
  if reqs.length > 0 then some reqs else none

/-- `security: options?.security ?? derivedSecurity` stored on the route
descriptor at registration time. -/
def routeSecurity (explicit : Option (List SecurityReq))
    (deps : List (String × ProviderDef)) : Option (List SecurityReq) :=
  match explicit with
  | some s => some s
  | none => deriveSecurity deps

/-- The document places `route.security` on the operation when present
(src/unnamed/part_010 lines 227-229) and the global default at document
level; by the OpenAPI resolution rule the effective requirement of an
operation is its own, falling back to the document default. -/
def effectiveSecurity (routeSec globalSec : Option (List SecurityReq)) :
    Option (List SecurityReq) :=
  match routeSec with
  | some s => some s
  | none => globalSec

/-! ## Derived observations used by the statements -/

/-- The contribution of one field group to the aggregated
`validationErrors` map: nothing when the group is undeclared or valid, and
its issue list keyed by the group's name when validation failed. -/
def groupIssues (name : String) (schOpt : Option Schema) (input : Val) :
    List (String × List Issue) :=
  match schOpt with
  | none => []
  | some sch =>
    match safeParse sch input with
    | .ok _ => []
    | .error issues => [(name, issues)]

/-- The field groups a route declares, in the order the wrapper processes
them. -/
def declaredGroups (cfg : WrapConfig) : List String :=
  (if cfg.paramsS.isSome then ["params"] else [])
    ++ (if cfg.queryS.isSome then ["query"] else [])
    ++ (if cfg.headersS.isSome then ["headers"] else [])
    ++ (if cfg.cookiesS.isSome then ["cookies"] else [])
    ++ (if cfg.bodyS.isSome then ["body"] else [])
    ++ (if cfg.formS.isSome then ["form"] else [])
    ++ (if cfg.fileS.isSome then ["file"] else [])
    ++ (if cfg.filesS.isSome then ["files"] else [])

/-- The aggregated `validationErrors` map of the collect-all wrapper,
written as the concatenation of every group's contribution. -/
def allGroupIssues (cfg : WrapConfig) (req : Request) :
    List (String × List Issue) :=
  groupIssues "params" cfg.paramsS (paramsInput req)
    ++ groupIssues "query" cfg.queryS (rawQueryVal req)
    ++ groupIssues "headers" cfg.headersS (headersInput req)
    ++ groupIssues "cookies" cfg.cookiesS (cookiesInput req)
    ++ groupIssues "body" cfg.bodyS req.jsonBody
    ++ groupIssues "form" cfg.formS (formInput req)
    ++ groupIssues "file" cfg.fileS (fileInput req)
    ++ groupIssues "files" cfg.filesS (filesInput req)

/-! ## Concrete instances used by witnesses and counterexamples -/

/-- A diamond call graph: providers `A` and `B` each request provider `C`
through the resolution context; `C` resolves to the number 42. -/
def envDiamond : Env := fun p =>
  if p = "C" then some (.base (.ok (.vNum 42)))
  else if p = "A" then some (.combine ["C"] (fun vs => .ok (.vArr vs)))
  else if p = "B" then some (.combine ["C"] (fun vs => .ok (.vArr vs)))
  else none

/-- A single chain that awaits `C` twice in sequence: provider `P`
requests `C`, and then `C` again after the first resolution completed. -/
def envChain : Env := fun p =>
  if p = "C" then some (.base (.ok (.vNum 42)))
  else if p = "P" then some (.combine ["C", "C"] (fun vs => .ok (.vArr vs)))
  else none

/-- The same diamond with a failing `C`. -/
def envDiamondFail : Env := fun p =>
  if p = "C" then some (.base (.error "boom"))
  else if p = "A" then some (.combine ["C"] (fun vs => .ok (.vArr vs)))
  else if p = "B" then some (.combine ["C"] (fun vs => .ok (.vArr vs)))
  else none

/-- A provider whose value is `undefined`. -/
def envUndef : Env := fun p =>
  if p = "u" then some (.base (.ok .vUndef)) else none

/-- A principal provider that finds no user, wrapped by the bearer
authorization decorator. -/
def envNoPrincipal : Env := fun p =>
  if p = "principal" then some (.base (.ok .vNull))
  else if p = "user" then some (.authWrapped "bearerAuth" none "principal")
  else none

/-- A principal with scopes `["read"]`, wrapped requiring
`["read", "write"]`. -/
def envScoped : Env := fun p =>
  if p = "principal" then
    some (.base (.ok (.vObj [("name", .vStr "eve"),
      ("scopes", .vArr [.vStr "read"])])))
  else if p = "user" then
    some (.authWrapped "bearerAuth" (some ["read", "write"]) "principal")
  else none

/-- A route declaring invalid-by-construction params and query schemas for
a request carrying neither: both groups fail. -/
def cfgTwoGroups : WrapConfig :=
  { paramsS := some (.objSch [("id", .numSch)]),
    queryS := some (.objSch [("page", .numSch)]),
    headersS := none, cookiesS := none, bodyS := none, formS := none,
    fileS := none, filesS := none, responses := none }

/-- A request with empty params and query maps (so both schemas above
fail), no body, and a zero content length. -/
def reqEmpty : Request :=
  { params := [], queries := [], headers := [], cookies := [],
    contentLengthHeader := some 0, bodyBytes := 0, jsonBody := .vUndef,
    formBody := [] }

/-- A route declaring only a body schema (the ungated core variant reads
the body whenever a schema is declared). -/
def cfgBodyOnly : WrapConfig :=
  { paramsS := none, queryS := none, headersS := none, cookiesS := none,
    bodyS := some (.objSch [("title", .strSch)]), formS := none,
    fileS := none, filesS := none, responses := none }

/-- A handler that awaits its first dependency and returns it as a plain
value: a rejected dependency re-raises inside the handler. -/
def awaitingHandler : HandlerFn := fun ctx =>
  match ctx.deps with
  | [] => .ok (.plainV .vNull)
  | (_, .ok v) :: _ => .ok (.plainV v)
  | (_, .error e) :: _ => .error e

/-- The transport reads the collect-all core wrapper performs: body-like
groups are read exactly when their schema is declared. -/
def coreReads (cfg : WrapConfig) : List String :=
  (if cfg.bodyS.isSome then ["json"] else [])
    ++ (if cfg.formS.isSome then ["parseBody"] else [])
    ++ (if cfg.fileS.isSome then ["parseBody"] else [])
    ++ (if cfg.filesS.isSome then ["parseBody"] else [])

/-- First-match lookup in the raw multi-value query map. -/
def queryLookup : List (String × List String) → String → Option (List String)
  | [], _ => none
  | (k', vs) :: rest, k => if k' = k then some vs else queryLookup rest k

/-- A handler result that the response validator inspects (everything but
a prebuilt non-JSON `Response`). -/
def isJsonLike : HandlerResult → Bool
  | .rawResp _ => false
  | _ => true

/-- The field list of a JS object (empty for non-objects, matching the
spread operands). -/
def fieldsOf (v : Val) : List (String × Val) :=
  match v with
  | .vObj fs => fs
  | _ => []

/-- A route declaring no request field groups at all. -/
def cfgNone : WrapConfig :=
  { paramsS := none, queryS := none, headersS := none, cookiesS := none,
    bodyS := none, formS := none, fileS := none, filesS := none,
    responses := none }

/-- A request carrying one query value for `a` and two for `b`. -/
def reqTwoQueries : Request :=
  { params := [], queries := [("a", ["x"]), ("b", ["y", "z"])],
    headers := [], cookies := [], contentLengthHeader := some 0,
    bodyBytes := 0, jsonBody := .vUndef, formBody := [] }

def respSchema201 : Schema :=
  .objSch [("name", .strSch), ("role", .defaultSch (.lStr "user") .strSch)]

def respsDecl : Val :=
  .vObj [("201", .vObj
    [("description", .vStr "Created"),
     ("content", .vObj
       [("application/json", .vObj [("schema", .vSchema respSchema201)])])])]

def resultGood : HandlerResult := .jsonResp (.vObj [("name", .vStr "a")]) 201

def resultBad : HandlerResult := .jsonResp (.vNum 1) 201

/-- A dependency map whose single provider is tagged scheme `bearerAuth`
with scopes `["read"]`. -/
def depsBearer : List (String × ProviderDef) :=
  [("user", .authWrapped "bearerAuth" (some ["read"]) "principal")]

/-- The scoped principal of `envScoped`: granted scopes `["read"]`. -/
def eveUser : Val :=
  .vObj [("name", .vStr "eve"), ("scopes", .vArr [.vStr "read"])]

/-- A normalized JSON request-body spec: not required, one
application/json media type carrying a zod schema. -/
def rbJson : NormRequestBody :=
  { required := false,
    content := [("application/json",
      .vObj [("schema", .vSchema (.objSch [("title", .strSch)]))])] }

/-- A request with a positive content length and a JSON payload. -/
def reqBody5 : Request :=
  { params := [], queries := [], headers := [], cookies := [],
    contentLengthHeader := some 5, bodyBytes := 5,
    jsonBody := .vObj [("title", .vStr "t")], formBody := [] }


/-! ## Theorems -/

theorem natDigitsAux_eq_digits (fuel n : Nat) (h : n ≤ fuel) :
    natDigitsAux fuel n = Nat.digits 10 n := by
  induction fuel generalizing n with
  | zero =>
    interval_cases n
    simp [natDigitsAux]
  | succ f ih =>
    match n with
    | 0 => simp [natDigitsAux]
    | Nat.succ m =>
      rw [natDigitsAux, Nat.digits_def' (by norm_num : 1 < 10) (Nat.succ_pos m)]
      congr 1
      exact ih _ (Nat.le_of_lt_succ (Nat.lt_of_lt_of_le
        (Nat.div_lt_self (Nat.succ_pos m) (by norm_num)) h))

theorem natDigitsRev_eq_digits (n : Nat) : natDigitsRev n = Nat.digits 10 n :=
  natDigitsAux_eq_digits n n (Nat.le_refl n)

theorem digitChar_isDigitByte (d : Nat) (h : d < 10) :
    (48 ≤ (digitChar d).toNat && (digitChar d).toNat ≤ 57) = true := by
  revert h
  revert d
  decide

theorem digitChar_toNat (d : Nat) (h : d < 10) : (digitChar d).toNat = 48 + d := by
  revert h
  revert d
  decide

theorem foldl_digitChars (L : List Nat) (hL : ∀ d ∈ L, d < 10) :
    ((L.reverse.map digitChar).foldl (fun a c => a * 10 + (c.toNat - 48)) 0)
      = Nat.ofDigits 10 L := by
  induction L with
  | nil => simp [Nat.ofDigits]
  | cons d L ih =>
    have hd : d < 10 := hL d (List.mem_cons_self d L)
    have hrest : ∀ x ∈ L, x < 10 := fun x hx => hL x (List.mem_cons_of_mem d hx)
    simp only [List.reverse_cons, List.map_append, List.foldl_append,
      List.map_cons, List.map_nil, List.foldl_cons, List.foldl_nil]
    rw [ih hrest, Nat.ofDigits_cons, digitChar_toNat d hd]
    omega

theorem keyToNat?_natKey (n : Nat) : keyToNat? (natKey n) = some n := by
  by_cases h0 : n = 0
  · subst h0
    rfl
  · have hdig : ∀ d ∈ Nat.digits 10 n, d < 10 := fun d hd =>
      Nat.digits_lt_base (by norm_num) hd
    have hne : Nat.digits 10 n ≠ [] := Nat.digits_ne_nil_iff_ne_zero.2 h0
    have hchars : ((Nat.digits 10 n).reverse.map digitChar) ≠ [] := by
      simp [hne]
    unfold natKey keyToNat?
    rw [if_neg h0]
    simp only [natDigitsRev_eq_digits, String.data]
    match hm : (Nat.digits 10 n).reverse.map digitChar, hchars with
    | c :: cs, _ =>
      rw [← hm]
      have hall : ((Nat.digits 10 n).reverse.map digitChar).all
          (fun c => 48 ≤ c.toNat && c.toNat ≤ 57) = true := by
        rw [List.all_eq_true]
        intro c hc
        rcases List.mem_map.1 ((List.mem_reverse).1
          (by simpa using hc) |> fun h => h) with ⟨d, hd, rfl⟩
        · exact digitChar_isDigitByte d (hdig d hd)
      rw [hm] at hall ⊢
      rw [if_pos hall, ← hm, foldl_digitChars _ hdig, Nat.ofDigits_digits]

theorem jsNumKey_natKey (n : Nat) : jsNumKey (natKey n) = natKey n := by
  unfold jsNumKey
  rw [keyToNat?_natKey]

/-- `String(Number(-))` is idempotent: applying the key transform twice
gives the same key as applying it once. -/
theorem jsNumKey_idem (s : String) : jsNumKey (jsNumKey s) = jsNumKey s := by
  unfold jsNumKey
  match h : keyToNat? s with
  | some n => rw [keyToNat?_natKey]
  | none => rfl

theorem filterMap_eq_self {α : Type} (f : α → Option α) (l : List α)
    (h : ∀ a ∈ l, f a = some a) : l.filterMap f = l := by
  induction l with
  | nil => rfl
  | cons a l ih =>
    rw [List.filterMap_cons, h a (List.mem_cons_self a l),
      ih (fun x hx => h x (List.mem_cons_of_mem a hx))]

theorem all_of_filterMap {α : Type} (f : α → Option α) (pred : α → Bool)
    (l : List α) (h : ∀ a ∈ l, ∀ b, f a = some b → pred b = true) :
    (l.filterMap f).all pred = true := by
  induction l with
  | nil => rfl
  | cons a l ih =>
    have ihl := ih (fun x hx b hb => h x (List.mem_cons_of_mem a hx) b hb)
    rw [List.filterMap_cons]
    match hfa : f a with
    | none => exact ihl
    | some b =>
      rw [List.all_cons, h a (List.mem_cons_self a l) b hfa, ihl]
      rfl

theorem filterMap_ne_nil_of_mem {α : Type} (f : α → Option α) (l : List α)
    (a : α) (ha : a ∈ l) (hb : (f a).isSome = true) : l.filterMap f ≠ [] := by
  induction l with
  | nil => cases ha
  | cons x l ih =>
    rw [List.filterMap_cons]
    match hfx : f x with
    | some b => simp
    | none =>
      rcases List.mem_cons.1 ha with rfl | hmem
      · rw [hfx] at hb
        cases hb
      · exact ih hmem

/-- An already-canonical response spec passes through every guard and the
status-map branch copies each entry unchanged. -/
theorem normalize_canonical_fixed (v : Val)
    (h : isCanonicalResponsesB v = true) :
    normalizeResponsesSchema v = some v := by
  match v with
  | .vObj fields =>
    rw [isCanonicalResponsesB] at h
    rw [Bool.and_eq_true, List.all_eq_true] at h
    obtain ⟨hne, hall⟩ := h
    have hkeys : ∀ p ∈ fields, jsNumKey p.1 = p.1 ∧ isRespObjB p.2 = true ∧
        hasKeyB p.2 "schema" = false := by
      intro p hp
      have := hall p hp
      rw [Bool.and_eq_true, Bool.and_eq_true] at this
      obtain ⟨⟨h1, h2⟩, h3⟩ := this
      exact ⟨by simpa using h1, h2, by simpa using h3⟩
    have hnotschema : hasKeyB (.vObj fields) "schema" = false := by
      rw [hasKeyB]
      rw [List.any_eq_false]
      intro p hp
      obtain ⟨hk, _, _⟩ := hkeys p hp
      intro hcontra
      rw [beq_iff_eq] at hcontra
      rw [hcontra] at hk
      exact absurd hk (by decide)
    have hnotcontent : hasKeyB (.vObj fields) "content" = false := by
      rw [hasKeyB]
      rw [List.any_eq_false]
      intro p hp
      obtain ⟨hk, _, _⟩ := hkeys p hp
      intro hcontra
      rw [beq_iff_eq] at hcontra
      rw [hcontra] at hk
      exact absurd hk (by decide)
    have hroute : isRouteResponsesB (.vObj fields) = true := by
      rw [isRouteResponsesB, List.any_eq_true]
      match fields, hne with
      | p :: rest, _ =>
        refine ⟨p, List.mem_cons_self p rest, ?_⟩
        obtain ⟨_, hobj, _⟩ := hkeys p (List.mem_cons_self p rest)
        rw [hobj]
        simp
    rw [normalizeResponsesSchema]
    rw [show isZodTypeB (.vObj fields) = false from rfl]
    rw [show isSimpleRespB (.vObj fields) = hasKeyB (.vObj fields) "schema" from rfl]
    rw [show isRespObjB (.vObj fields) = hasKeyB (.vObj fields) "content" from rfl]
    rw [hnotschema, hnotcontent, hroute]
    simp only [Bool.false_eq_true, if_false, if_true]
    rw [filterMap_eq_self _ _ ?_]
    intro p hp
    obtain ⟨hk, hobj, hsch⟩ := hkeys p hp
    rw [normalizeEntry]
    have hz : isZodTypeB p.2 = false := by
      match p, hobj with
      | (k, .vObj fs), _ => rfl
    have hs : isSimpleRespB p.2 = false := by
      match p, hobj, hsch with
      | (k, .vObj fs), _, hsch => rw [isSimpleRespB]; exact hsch
    rw [hz, hs, hobj]
    simp only [Bool.false_eq_true, if_false, if_true]
    rw [hk]
  | .vNull => simp [isCanonicalResponsesB] at h
  | .vUndef => simp [isCanonicalResponsesB] at h
  | .vBool b => simp [isCanonicalResponsesB] at h
  | .vNum n => simp [isCanonicalResponsesB] at h
  | .vStr s => simp [isCanonicalResponsesB] at h
  | .vArr xs => simp [isCanonicalResponsesB] at h
  | .vSchema s => simp [isCanonicalResponsesB] at h

theorem jsNumKey_twoHundred : jsNumKey "200" = "200" := rfl

theorem normalizeEntry_isSome (p : String × Val)
    (h : (isZodTypeB p.2 || isSimpleRespB p.2 || isRespObjB p.2) = true) :
    (normalizeEntry p).isSome = true := by
  rw [normalizeEntry]
  match hz : isZodTypeB p.2 with
  | true => simp
  | false =>
    match hs : isSimpleRespB p.2 with
    | true =>
      match p, hs with
      | (k, .vObj fs), _ => simp
    | false =>
      match hr : isRespObjB p.2 with
      | true => simp
      | false =>
        rw [hz, hs, hr] at h
        cases h

theorem normalizeEntry_canon (p : String × Val) (b : String × Val)
    (h : normalizeEntry p = some b) : canonEntryB b = true := by
  rw [normalizeEntry] at h
  match hz : isZodTypeB p.2 with
  | true =>
    rw [hz] at h
    simp only [if_true] at h
    cases h
    simp [canonEntryB, jsNumKey_idem, isRespObjB, hasKeyB]
  | false =>
    rw [hz] at h
    simp only [Bool.false_eq_true, if_false] at h
    match hs : isSimpleRespB p.2 with
    | true =>
      rw [hs] at h
      simp only [if_true] at h
      match p, hs, h with
      | (k, .vObj fs), _, h =>
        cases h
        simp [canonEntryB, jsNumKey_idem, unwrapSimple, isRespObjB, hasKeyB]
    | false =>
      rw [hs] at h
      simp only [Bool.false_eq_true, if_false] at h
      match hr : isRespObjB p.2 with
      | true =>
        rw [hr] at h
        simp only [if_true] at h
        cases h
        rw [canonEntryB]
        have hschema : hasKeyB p.2 "schema" = false := by
          match p, hr, hs with
          | (k, .vObj fs), _, hs => rw [isSimpleRespB] at hs; exact hs
        simp [jsNumKey_idem, hr, hschema]
      | false =>
        rw [hr] at h
        simp only [Bool.false_eq_true, if_false] at h
        cases h

/-- Every result the normalizer produces is itself canonical. -/
theorem normalize_output_canonical (x y : Val)
    (h : normalizeResponsesSchema x = some y) :
    isCanonicalResponsesB y = true := by
  match x with
  | .vNull => simp [normalizeResponsesSchema, isZodTypeB, isSimpleRespB,
      isRespObjB, isRouteResponsesB] at h
  | .vUndef => simp [normalizeResponsesSchema, isZodTypeB, isSimpleRespB,
      isRespObjB, isRouteResponsesB] at h
  | .vBool b => simp [normalizeResponsesSchema, isZodTypeB, isSimpleRespB,
      isRespObjB, isRouteResponsesB] at h
  | .vNum n => simp [normalizeResponsesSchema, isZodTypeB, isSimpleRespB,
      isRespObjB, isRouteResponsesB] at h
  | .vStr s => simp [normalizeResponsesSchema, isZodTypeB, isSimpleRespB,
      isRespObjB, isRouteResponsesB] at h
  | .vArr xs => simp [normalizeResponsesSchema, isZodTypeB, isSimpleRespB,
      isRespObjB, isRouteResponsesB] at h
  | .vSchema s =>
    simp only [normalizeResponsesSchema, isZodTypeB, if_true,
      Option.some.injEq] at h
    subst h
    simp [isCanonicalResponsesB, jsNumKey_twoHundred, isRespObjB, hasKeyB]
  | .vObj fields =>
    simp only [normalizeResponsesSchema, isZodTypeB, Bool.false_eq_true,
      if_false] at h
    match hs : isSimpleRespB (Val.vObj fields) with
    | true =>
      rw [hs] at h
      simp only [if_true, Option.some.injEq] at h
      subst h
      simp [isCanonicalResponsesB, jsNumKey_twoHundred, unwrapSimple,
        isRespObjB, hasKeyB]
    | false =>
      rw [hs] at h
      simp only [Bool.false_eq_true, if_false] at h
      match hr : isRespObjB (Val.vObj fields) with
      | true =>
        rw [hr] at h
        simp only [if_true, Option.some.injEq] at h
        subst h
        have hschema : hasKeyB (Val.vObj fields) "schema" = false := by
          rw [isSimpleRespB] at hs
          exact hs
        simp [isCanonicalResponsesB, jsNumKey_twoHundred, hr, hschema]
      | false =>
        rw [hr] at h
        simp only [Bool.false_eq_true, if_false] at h
        match hroute : isRouteResponsesB (Val.vObj fields) with
        | true =>
          rw [hroute] at h
          simp only [if_true, Option.some.injEq] at h
          subst h
          simp only [isRouteResponsesB, List.any_eq_true] at hroute
          obtain ⟨p, hp, hmatch⟩ := hroute
          rw [isCanonicalResponsesB, Bool.and_eq_true]
          constructor
          · have hne : fields.filterMap normalizeEntry ≠ [] :=
              filterMap_ne_nil_of_mem _ _ p hp (normalizeEntry_isSome p hmatch)
            simpa [List.isEmpty_iff] using hne
          · exact all_of_filterMap normalizeEntry canonEntryB fields
              (fun a _ b hb => normalizeEntry_canon a b hb)
        | false =>
          rw [hroute] at h
          simp only [Bool.false_eq_true, if_false] at h
          cases h

theorem storeGet_set_self (st : List (PName × Val)) (p : PName) (v : Val) :
    storeGet (storeSet st p v) p = v := by
  induction st with
  | nil => simp [storeSet, storeGet]
  | cons kv rest ih =>
    obtain ⟨k, w⟩ := kv
    by_cases hk : k = p
    · subst hk
      simp [storeSet, storeGet]
    · simp [storeSet, storeGet, hk, ih]

theorem storeGet_set_ne (st : List (PName × Val)) (p q : PName) (v : Val)
    (h : q ≠ p) : storeGet (storeSet st p v) q = storeGet st q := by
  have hpq : p ≠ q := Ne.symm h
  induction st with
  | nil => simp [storeSet, storeGet, hpq]
  | cons kv rest ih =>
    obtain ⟨k, w⟩ := kv
    by_cases hk : k = p
    · subst hk
      simp [storeSet, storeGet, hpq]
    · simp [storeSet, storeGet, hk, ih]

/-- A cached value other than `undefined` is returned without touching the
scope at all: no provider body runs and the store is unchanged. -/
theorem resolveProvider_cached (fuel : Nat) (env : Env) (p : PName) (s : Scope)
    (h : isUndef (storeGet s.store p) = false) :
    resolveProvider (fuel + 1) env p s = (.ok (storeGet s.store p), s) := by
  rw [resolveProvider, h]
  simp

/-- A successful resolution leaves the resolved value in the store under
the provider's identity. -/
theorem resolveProvider_ok_sets (fuel : Nat) (env : Env) (p : PName)
    (s : Scope) (v : Val) (s1 : Scope)
    (h : resolveProvider fuel env p s = (.ok v, s1)) :
    storeGet s1.store p = v := by
  match fuel with
  | 0 => cases h
  | f + 1 =>
    rw [resolveProvider] at h
    match hc : isUndef (storeGet s.store p) with
    | false =>
      rw [hc] at h
      simp only [Bool.false_eq_true, if_false, Prod.mk.injEq] at h
      obtain ⟨hv, hs⟩ := h
      cases hv
      rw [← hs]
    | true =>
      rw [hc] at h
      simp only [if_true] at h
      match henv : env p with
      | none =>
        rw [henv] at h
        cases h
      | some pd =>
        rw [henv] at h
        simp only [] at h
        match hev : (evalProviderBody f env pd { s with evals := s.evals ++ [p] }).1 with
        | .ok w =>
          rw [hev] at h
          simp only [Prod.mk.injEq] at h
          obtain ⟨hv, hs⟩ := h
          cases hv
          rw [← hs]
          exact storeGet_set_self _ p v
        | .error e =>
          rw [hev] at h
          cases h

/-- Unfolding: a cache miss against an unknown provider rejects. -/
theorem resolveProvider_succ_unknown (fuel : Nat) (env : Env) (p : PName)
    (s : Scope) (hc : isUndef (storeGet s.store p) = true)
    (henv : env p = none) :
    resolveProvider (fuel + 1) env p s = (.error "unknown provider", s) := by
  rw [resolveProvider, hc, henv]
  simp

/-- Unfolding: a cache miss against a registered provider enters its body
(logging the entry) and stores the value on success. -/
theorem resolveProvider_succ_miss (fuel : Nat) (env : Env) (p : PName)
    (s : Scope) (pd : ProviderDef)
    (hc : isUndef (storeGet s.store p) = true) (henv : env p = some pd) :
    resolveProvider (fuel + 1) env p s =
      (match (evalProviderBody fuel env pd { s with evals := s.evals ++ [p] }).1 with
       | .ok v => ((.ok v : Except String Val),
          { (evalProviderBody fuel env pd { s with evals := s.evals ++ [p] }).2 with
            store := storeSet
              (evalProviderBody fuel env pd { s with evals := s.evals ++ [p] }).2.store
              p v })
       | .error e => (.error e,
          (evalProviderBody fuel env pd { s with evals := s.evals ++ [p] }).2)) := by
  rw [resolveProvider, hc, henv]
  simp

/-- Any activity of the resolver preserves store entries that already hold
a value other than `undefined`: only a cache miss writes, and it writes
the missing key. -/
theorem store_preserve (fuel : Nat) :
    (∀ env p s q, isUndef (storeGet s.store q) = false →
      storeGet (resolveProvider fuel env p s).2.store q = storeGet s.store q)
    ∧ (∀ env pd s q, isUndef (storeGet s.store q) = false →
      storeGet (evalProviderBody fuel env pd s).2.store q = storeGet s.store q)
    ∧ (∀ env ps s q, isUndef (storeGet s.store q) = false →
      storeGet (resolveEach fuel env ps s).2.store q = storeGet s.store q) := by
  induction fuel with
  | zero =>
    refine ⟨?_, ?_, ?_⟩ <;> intro env a s q _ <;>
      simp [resolveProvider, evalProviderBody, resolveEach]
  | succ f ih =>
    obtain ⟨ih1, ih2, ih3⟩ := ih
    refine ⟨?_, ?_, ?_⟩
    · intro env p s q hq
      match hc : isUndef (storeGet s.store p) with
      | false => rw [resolveProvider_cached f env p s hc]
      | true =>
        match henv : env p with
        | none => rw [resolveProvider_succ_unknown f env p s hc henv]
        | some pd =>
          rw [resolveProvider_succ_miss f env p s pd hc henv]
          have h2 := ih2 env pd { s with evals := s.evals ++ [p] } q hq
          match hev : (evalProviderBody f env pd { s with evals := s.evals ++ [p] }).1 with
          | .ok v =>
            have hqp : q ≠ p := by
              intro he
              rw [he] at hq
              rw [hq] at hc
              cases hc
            show storeGet (storeSet
              (evalProviderBody f env pd { s with evals := s.evals ++ [p] }).2.store
              p v) q = storeGet s.store q
            rw [storeGet_set_ne _ p q v hqp]
            exact h2
          | .error e => exact h2
    · intro env pd s q hq
      match pd with
      | .base r => rw [evalProviderBody]
      | .combine deps g =>
        rw [evalProviderBody]
        exact ih3 env deps s q hq
      | .authWrapped scheme scopes inner =>
        rw [evalProviderBody]
        exact ih1 env inner s q hq
    · intro env ps s q hq
      match ps with
      | [] => rw [resolveEach]
      | p :: rest =>
        rw [resolveEach]
        have h1 := ih1 env p s q hq
        match hr : (resolveProvider f env p s).1 with
        | .error e => exact h1
        | .ok v =>
          have hq1 : isUndef (storeGet (resolveProvider f env p s).2.store q) = false := by
            rw [h1]
            exact hq
          have h3 := ih3 env rest (resolveProvider f env p s).2 q hq1
          show storeGet (resolveEach f env rest (resolveProvider f env p s).2).2.store q
            = storeGet s.store q
          rw [h3, h1]

/-- The evaluation log only ever grows. -/
theorem evals_mono (fuel : Nat) :
    (∀ env p s, ∃ t, (resolveProvider fuel env p s).2.evals = s.evals ++ t)
    ∧ (∀ env pd s, ∃ t, (evalProviderBody fuel env pd s).2.evals = s.evals ++ t)
    ∧ (∀ env ps s, ∃ t, (resolveEach fuel env ps s).2.evals = s.evals ++ t) := by
  induction fuel with
  | zero =>
    refine ⟨?_, ?_, ?_⟩ <;> intro env a s <;> exact ⟨[], by
      simp [resolveProvider, evalProviderBody, resolveEach]⟩
  | succ f ih =>
    obtain ⟨ih1, ih2, ih3⟩ := ih
    refine ⟨?_, ?_, ?_⟩
    · intro env p s
      match hc : isUndef (storeGet s.store p) with
      | false =>
        rw [resolveProvider_cached f env p s hc]
        exact ⟨[], by simp⟩
      | true =>
        match henv : env p with
        | none =>
          rw [resolveProvider_succ_unknown f env p s hc henv]
          exact ⟨[], by simp⟩
        | some pd =>
          rw [resolveProvider_succ_miss f env p s pd hc henv]
          obtain ⟨t, ht⟩ := ih2 env pd { s with evals := s.evals ++ [p] }
          match hev : (evalProviderBody f env pd { s with evals := s.evals ++ [p] }).1 with
          | .ok v =>
            refine ⟨p :: t, ?_⟩
            show (evalProviderBody f env pd { s with evals := s.evals ++ [p] }).2.evals
              = s.evals ++ p :: t
            rw [ht]
            simp
          | .error e =>
            refine ⟨p :: t, ?_⟩
            show (evalProviderBody f env pd { s with evals := s.evals ++ [p] }).2.evals
              = s.evals ++ p :: t
            rw [ht]
            simp
    · intro env pd s
      match pd with
      | .base r => exact ⟨[], by rw [evalProviderBody]; simp⟩
      | .combine deps g =>
        obtain ⟨t, ht⟩ := ih3 env deps s
        exact ⟨t, by rw [evalProviderBody]; exact ht⟩
      | .authWrapped scheme scopes inner =>
        obtain ⟨t, ht⟩ := ih1 env inner s
        exact ⟨t, by rw [evalProviderBody]; exact ht⟩
    · intro env ps s
      match ps with
      | [] => exact ⟨[], by rw [resolveEach]; simp⟩
      | p :: rest =>
        rw [resolveEach]
        obtain ⟨t, ht⟩ := ih1 env p s
        match hr : (resolveProvider f env p s).1 with
        | .error e => exact ⟨t, ht⟩
        | .ok v =>
          obtain ⟨u, hu⟩ := ih3 env rest (resolveProvider f env p s).2
          refine ⟨t ++ u, ?_⟩
          show (resolveEach f env rest (resolveProvider f env p s).2).2.evals
            = s.evals ++ (t ++ u)
          rw [hu, ht, List.append_assoc]

theorem valStep_validated (n : String) (so : Option Schema) (i d : Val)
    (rds : List String) (st : ValState) :
    ((valStep n so i d rds st).1).validated
      = st.validated ++ (if so.isSome then [n] else []) := by
  match so with
  | none => simp [valStep]
  | some sch =>
    match hp : safeParse sch i with
    | .ok v => simp [valStep, hp]
    | .error issues => simp [valStep, hp]

theorem valStep_errors (n : String) (so : Option Schema) (i d : Val)
    (rds : List String) (st : ValState) :
    ((valStep n so i d rds st).1).errors
      = st.errors ++ groupIssues n so i := by
  match so with
  | none => simp [valStep, groupIssues]
  | some sch =>
    match hp : safeParse sch i with
    | .ok v => simp [valStep, groupIssues, hp]
    | .error issues => simp [valStep, groupIssues, hp]

theorem valStep_reads (n : String) (so : Option Schema) (i d : Val)
    (rds : List String) (st : ValState) :
    ((valStep n so i d rds st).1).reads
      = st.reads ++ (if so.isSome then rds else []) := by
  match so with
  | none => simp [valStep]
  | some sch =>
    match hp : safeParse sch i with
    | .ok v => simp [valStep, hp]
    | .error issues => simp [valStep, hp]

/-- The collect-all pipeline validates exactly the declared groups, in
order, whatever the individual outcomes are. -/
theorem validateCore_validated (cfg : WrapConfig) (req : Request) :
    (validateCore cfg req).1.validated = declaredGroups cfg := by
  rw [validateCore, declaredGroups]
  simp only [valStep_validated]
  simp [initValState]

/-- The collect-all pipeline aggregates every group's failure into the one
`validationErrors` map, keyed by group name. -/
theorem validateCore_errors (cfg : WrapConfig) (req : Request) :
    (validateCore cfg req).1.errors = allGroupIssues cfg req := by
  rw [validateCore, allGroupIssues]
  simp only [valStep_errors]
  simp [initValState]

/-- The collect-all pipeline reads each body-like group from the transport
exactly when its schema is declared (the ungated variant). -/
theorem validateCore_reads (cfg : WrapConfig) (req : Request) :
    (validateCore cfg req).1.reads = coreReads cfg := by
  rw [validateCore, coreReads]
  simp only [valStep_reads]
  simp [initValState]

theorem runCore_validated (cfg : WrapConfig) (deps : List (String × PName))
    (env : Env) (fuel : Nat) (handler : HandlerFn) (req : Request) :
    (runCore cfg deps env fuel handler req).validated = declaredGroups cfg := by
  rw [runCore]
  by_cases hE : (validateCore cfg req).1.errors.isEmpty
  · simp only [hE, if_true]
    exact validateCore_validated cfg req
  · simp only [hE, Bool.false_eq_true, if_false]
    exact validateCore_validated cfg req

theorem runCore_handlerRan (cfg : WrapConfig) (deps : List (String × PName))
    (env : Env) (fuel : Nat) (handler : HandlerFn) (req : Request) :
    (runCore cfg deps env fuel handler req).handlerRan
      = (allGroupIssues cfg req).isEmpty := by
  rw [runCore]
  rw [show (validateCore cfg req).1.errors = allGroupIssues cfg req from
    validateCore_errors cfg req]
  by_cases hE : (allGroupIssues cfg req).isEmpty
  · simp only [hE, if_true]
  · simp only [hE, Bool.false_eq_true, if_false]

theorem runCore_badRequest (cfg : WrapConfig) (deps : List (String × PName))
    (env : Env) (fuel : Nat) (handler : HandlerFn) (req : Request)
    (h : allGroupIssues cfg req ≠ []) :
    (runCore cfg deps env fuel handler req).outcome
      = .error (.badRequest (allGroupIssues cfg req)) := by
  rw [runCore]
  rw [show (validateCore cfg req).1.errors = allGroupIssues cfg req from
    validateCore_errors cfg req]
  have hE : (allGroupIssues cfg req).isEmpty = false := by
    match hA : allGroupIssues cfg req with
    | [] => exact absurd hA h
    | _ :: _ => rfl
  simp only [hE, Bool.false_eq_true, if_false]

/-- The fail-fast wrapper stops at the first invalid group: when the
params group is declared and invalid, only `params` is ever validated and
the thrown 400 carries only its issues. -/
theorem runHono_failFast (cfg : WrapConfig) (deps : List (String × PName))
    (env : Env) (fuel : Nat) (handler : HandlerFn) (req : Request)
    (ps : Schema) (issues : List Issue)
    (hcfg : cfg.paramsS = some ps)
    (hfail : safeParse ps (paramsInput req) = .error issues) :
    (runHono cfg deps env fuel handler req).validated = ["params"]
    ∧ (runHono cfg deps env fuel handler req).outcome
        = .error (.failFast "params" issues)
    ∧ (runHono cfg deps env fuel handler req).handlerRan = false := by
  have hv : validateHono cfg req = .error
      ({ initValState with validated := ["params"] }, "params", issues) := by
    rw [validateHono, hcfg]
    simp [honoStep, hfail, initValState, bind, Except.bind]
  rw [runHono, hv]
  exact ⟨rfl, rfl, rfl⟩

theorem getField_eq_vUndef_of_not_hasKey (fields : List (String × Val))
    (k : String) (h : fields.any (fun p => p.1 == k) = false) :
    getField fields k = .vUndef := by
  induction fields with
  | nil => rfl
  | cons p rest ih =>
    rw [List.any_cons, Bool.or_eq_false_iff] at h
    obtain ⟨h1, h2⟩ := h
    rw [beq_eq_false_iff_ne] at h1
    obtain ⟨k', v⟩ := p
    rw [getField, if_neg h1]
    exact ih h2

theorem getField_append (xs ys : List (String × Val)) (k : String) :
    getField (xs ++ ys) k
      = (if xs.any (fun p => p.1 == k) then getField xs k else getField ys k) := by
  induction xs with
  | nil => simp [getField]
  | cons p rest ih =>
    obtain ⟨k', v⟩ := p
    by_cases hk : k' = k
    · subst hk
      simp [getField]
    · have hb : (k' == k) = false := beq_eq_false_iff_ne.2 hk
      simp [getField, hk, ih]
      rw [hb, Bool.false_or]

theorem getField_filter_keep (fields : List (String × Val)) (k : String)
    (q : String × Val → Bool) (hq : ∀ p, p.1 = k → q p = true) :
    getField (fields.filter q) k = getField fields k := by
  induction fields with
  | nil => rfl
  | cons p rest ih =>
    obtain ⟨k', v⟩ := p
    by_cases hk : k' = k
    · subst hk
      rw [List.filter_cons, hq (k', v) rfl]
      simp [getField]
    · rw [List.filter_cons]
      match q (k', v) with
      | true =>
        simp only [if_true]
        rw [getField, if_neg hk, getField, if_neg hk]
        exact ih
      | false =>
        simp only [Bool.false_eq_true, if_false]
        rw [getField, if_neg hk]
        exact ih

theorem getField_map_keyed (fields : List (String × Val))
    (f : String × Val → String × Val) (hf : ∀ p, (f p).1 = p.1) (k : String) :
    getField (fields.map f) k
      = (if fields.any (fun p => p.1 == k) then (f (k, getField fields k)).2
         else .vUndef) := by
  induction fields with
  | nil => rfl
  | cons p rest ih =>
    obtain ⟨k', v⟩ := p
    by_cases hk : k' = k
    · rw [List.map_cons, List.any_cons]
      rw [show (k' == k) = true from beq_iff_eq.2 hk]
      rw [Bool.true_or, if_pos rfl]
      rw [show getField ((k', v) :: rest) k = v from by rw [getField, if_pos hk]]
      have hkey : (f (k', v)).1 = k := by
        rw [hf (k', v)]
        exact hk
      rw [getField, if_pos hkey, hk]
    · have hb : (k' == k) = false := beq_eq_false_iff_ne.2 hk
      rw [List.map_cons, List.any_cons, hb, Bool.false_or]
      rw [getField, if_neg (by rw [hf (k', v)]; exact hk)]
      rw [show getField ((k', v) :: rest) k = getField rest k from by
        rw [getField, if_neg hk]]
      exact ih

theorem any_key_map (fields : List (String × Val))
    (f : String × Val → String × Val) (hf : ∀ p, (f p).1 = p.1) (k : String) :
    (fields.map f).any (fun p => p.1 == k)
      = fields.any (fun p => p.1 == k) := by
  induction fields with
  | nil => rfl
  | cons p rest ih =>
    rw [List.map_cons, List.any_cons, List.any_cons, hf p, ih]

/-- Spread lookup: the right operand wins where both carry the key. -/
theorem jsSpread_objGet (af bf : List (String × Val)) (k : String) :
    objGet (jsSpread (.vObj af) (.vObj bf)) k
      = (if hasKeyB (.vObj bf) k then getField bf k else getField af k) := by
  have hf : ∀ p : String × Val, ((fun p : String × Val => (p.1,
      if hasKeyB (Val.vObj bf) p.1 then getField bf p.1 else p.2)) p).1 = p.1 :=
    fun p => rfl
  rw [jsSpread]
  rw [objGet, getField_append, any_key_map af _ hf]
  by_cases haf : af.any (fun p => p.1 == k) = true
  · rw [if_pos haf, getField_map_keyed af _ hf, if_pos haf]
  · have haf' : af.any (fun p => p.1 == k) = false := by
      rw [Bool.eq_false_iff]
      exact haf
    rw [if_neg haf]
    rw [getField_filter_keep bf k _ ?_]
    · by_cases hbf : hasKeyB (.vObj bf) k = true
      · rw [if_pos hbf]
      · rw [if_neg hbf]
        rw [getField_eq_vUndef_of_not_hasKey af k haf']
        rw [getField_eq_vUndef_of_not_hasKey bf k ?_]
        rw [hasKeyB] at hbf
        rw [Bool.eq_false_iff]
        exact hbf
    · intro p hp
      rw [Bool.not_eq_true']
      rw [hasKeyB, hp]
      exact haf'

theorem any_key_filter_keep (fields : List (String × Val)) (k : String)
    (q : String × Val → Bool) (hq : ∀ p, p.1 = k → q p = true) :
    (fields.filter q).any (fun p => p.1 == k)
      = fields.any (fun p => p.1 == k) := by
  induction fields with
  | nil => rfl
  | cons p rest ih =>
    by_cases hk : p.1 = k
    · rw [List.filter_cons, hq p hk]
      simp only [if_true, List.any_cons, ih]
    · have hb : (p.1 == k) = false := beq_eq_false_iff_ne.2 hk
      rw [List.filter_cons]
      match q p with
      | true =>
        simp only [if_true, List.any_cons, hb, Bool.false_or]
        exact ih
      | false =>
        simp only [Bool.false_eq_true, if_false]
        rw [ih, List.any_cons, hb, Bool.false_or]

/-- Spread key presence. -/
theorem jsSpread_hasKey (af bf : List (String × Val)) (k : String) :
    hasKeyB (jsSpread (.vObj af) (.vObj bf)) k
      = (hasKeyB (.vObj af) k || hasKeyB (.vObj bf) k) := by
  have hf : ∀ p : String × Val, ((fun p : String × Val => (p.1,
      if hasKeyB (Val.vObj bf) p.1 then getField bf p.1 else p.2)) p).1 = p.1 :=
    fun p => rfl
  rw [jsSpread]
  rw [hasKeyB]
  rw [List.any_append, any_key_map af _ hf]
  by_cases haf : af.any (fun p => p.1 == k) = true
  · rw [haf]
    rw [show hasKeyB (Val.vObj af) k = true from by rw [hasKeyB]; exact haf]
    simp
  · have haf' : af.any (fun p => p.1 == k) = false := by
      rw [Bool.eq_false_iff]
      exact haf
    rw [haf', Bool.false_or]
    rw [any_key_filter_keep bf k _ ?_]
    · rw [show hasKeyB (Val.vObj af) k = false from by rw [hasKeyB]; exact haf']
      rw [Bool.false_or, hasKeyB]
    · intro p hp
      rw [Bool.not_eq_true']
      rw [hasKeyB, hp]
      exact haf'

theorem collapseQuery_lookup (qs : List (String × List String)) (k : String)
    (vs : List String) (h : queryLookup qs k = some vs) :
    getField (collapseQuery qs) k
      = (if vs.length = 1 then Val.vStr (vs.headD "")
         else Val.vArr (vs.map Val.vStr)) := by
  induction qs with
  | nil => cases h
  | cons p rest ih =>
    obtain ⟨k', ws⟩ := p
    rw [collapseQuery, List.map_cons]
    by_cases hk : k' = k
    · rw [queryLookup, if_pos hk] at h
      cases h
      match vs with
      | [] => simp [getField, hk]
      | [v] => simp [getField, hk]
      | a :: b :: t => simp [getField, hk]
    · rw [queryLookup, if_neg hk] at h
      have hih := ih h
      rw [collapseQuery] at hih
      match ws with
      | [] =>
        rw [getField, if_neg hk]
        exact hih
      | [v] =>
        rw [getField, if_neg hk]
        exact hih
      | a :: b :: t =>
        rw [getField, if_neg hk]
        exact hih

/-- A cache miss on a registered provider re-enters the provider body,
logging a fresh evaluation event. -/
theorem resolveProvider_miss_reenters (fuel : Nat) (env : Env) (p : PName)
    (s : Scope) (pd : ProviderDef)
    (hc : isUndef (storeGet s.store p) = true) (henv : env p = some pd) :
    ∃ t, (resolveProvider (fuel + 1) env p s).2.evals = s.evals ++ p :: t := by
  rw [resolveProvider_succ_miss fuel env p s pd hc henv]
  obtain ⟨t, ht⟩ := (evals_mono fuel).2.1 env pd { s with evals := s.evals ++ [p] }
  match hev : (evalProviderBody fuel env pd { s with evals := s.evals ++ [p] }).1 with
  | .ok v =>
    refine ⟨t, ?_⟩
    show (evalProviderBody fuel env pd { s with evals := s.evals ++ [p] }).2.evals
      = s.evals ++ p :: t
    rw [ht]
    simp
  | .error e =>
    refine ⟨t, ?_⟩
    show (evalProviderBody fuel env pd { s with evals := s.evals ++ [p] }).2.evals
      = s.evals ++ p :: t
    rw [ht]
    simp

/-- The document's per-status content object is taken verbatim from the
merged response map. -/
theorem buildDocResponses_content (mfields : List (String × Val)) (stat : String)
    (h : mfields.any (fun p => p.1 == stat) = true) :
    objGet (objGet (buildDocResponses (.vObj mfields)) stat) "content"
      = objGet (getField mfields stat) "content" := by
  rw [buildDocResponses]
  have hf : ∀ p : String × Val, ((fun p : String × Val => (p.1, Val.vObj
      [("description", orFalsy (objGet p.2 "description") (statusReason p.1)),
       ("content", objGet p.2 "content")])) p).1 = p.1 := fun p => rfl
  rw [objGet, getField_map_keyed mfields _ hf, if_pos h]
  rw [objGet, getField, getField]
  simp

/-- The decoded query handed to the handler comes from parsing exactly the
collapsed query object. -/
theorem validateCore_query_decoded (cfg : WrapConfig) (req : Request)
    (sch : Schema) (d : Val) (hcfg : cfg.queryS = some sch)
    (hok : safeParse sch (rawQueryVal req) = .ok d) :
    (validateCore cfg req).2.query = d := by
  rw [validateCore]
  simp only [hcfg, valStep, hok]

/-! ## Claim theorems -/

/-- C6: normalizing a response spec already in canonical form (a map from
status code to description/content objects) returns a spec equal to the
input, and `normalizeResponsesSchema` is idempotent: every accepted input
normalizes to a fixed point, so normalizing twice equals normalizing
once. -/
theorem claim_C6_normalize_idempotent :
    (∀ v : Val, isCanonicalResponsesB v = true →
      normalizeResponsesSchema v = some v)
    ∧ (∀ x y : Val, normalizeResponsesSchema x = some y →
      normalizeResponsesSchema y = some y) :=
  ⟨normalize_canonical_fixed,
   fun x y h => normalize_canonical_fixed y (normalize_output_canonical x y h)⟩

/-- Witness for C6: a concrete canonical spec is returned unchanged, and a
bare-schema input normalizes to a fixed point. -/
theorem claim_C6_normalize_idempotent_witness :
    (isCanonicalResponsesB (Val.vObj [("200", Val.vObj
        [("description", Val.vStr "ok"),
         ("content", Val.vObj [("application/json",
            Val.vObj [("schema", Val.vSchema Schema.strSch)])])])]) = true
      ∧ normalizeResponsesSchema (Val.vObj [("200", Val.vObj
        [("description", Val.vStr "ok"),
         ("content", Val.vObj [("application/json",
            Val.vObj [("schema", Val.vSchema Schema.strSch)])])])])
        = some (Val.vObj [("200", Val.vObj
        [("description", Val.vStr "ok"),
         ("content", Val.vObj [("application/json",
            Val.vObj [("schema", Val.vSchema Schema.strSch)])])])]))
    ∧ (normalizeResponsesSchema (Val.vSchema Schema.strSch)
        = some (Val.vObj [("200", Val.vObj [("content",
            Val.vObj [("application/json",
              Val.vObj [("schema", Val.vSchema Schema.strSch)])])])])
      ∧ normalizeResponsesSchema (Val.vObj [("200", Val.vObj [("content",
            Val.vObj [("application/json",
              Val.vObj [("schema", Val.vSchema Schema.strSch)])])])])
        = some (Val.vObj [("200", Val.vObj [("content",
            Val.vObj [("application/json",
              Val.vObj [("schema", Val.vSchema Schema.strSch)])])])])) :=
  ⟨⟨rfl, claim_C6_normalize_idempotent.1 _ rfl⟩,
   ⟨rfl, claim_C6_normalize_idempotent.2 (Val.vSchema Schema.strSch) _ rfl⟩⟩

/-- C5: before any schema validation runs, the raw multi-value query map
is collapsed: a key with exactly one value is presented as a scalar
string, a key with two or more values as an array of strings; and the
query validator consumes exactly this collapsed object (its decoded output
and its error contribution are computed from `rawQueryVal`). -/
theorem claim_C5_query_collapse :
    (∀ (req : Request) (k : String) (vs : List String),
      queryLookup req.queries k = some vs →
      (∀ v, vs = [v] → objGet (rawQueryVal req) k = .vStr v)
      ∧ (2 ≤ vs.length → objGet (rawQueryVal req) k = .vArr (vs.map .vStr)))
    ∧ (∀ (cfg : WrapConfig) (req : Request) (sch : Schema) (d : Val),
      cfg.queryS = some sch → safeParse sch (rawQueryVal req) = .ok d →
      (validateCore cfg req).2.query = d)
    ∧ (∀ (cfg : WrapConfig) (req : Request),
      (validateCore cfg req).1.errors = allGroupIssues cfg req) := by
  refine ⟨?_, validateCore_query_decoded, validateCore_errors⟩
  intro req k vs h
  have hc := collapseQuery_lookup req.queries k vs h
  constructor
  · intro v hv
    subst hv
    rw [rawQueryVal, objGet, hc]
    rfl
  · intro h2
    rw [rawQueryVal, objGet, hc]
    rw [if_neg ?_]
    omega

/-- Witness for C5 at a concrete request: one value for `a` collapses to a
scalar, two values for `b` stay an array, and a query schema decodes from
the collapsed object. -/
theorem claim_C5_query_collapse_witness :
    (queryLookup reqTwoQueries.queries "a" = some ["x"]
      ∧ objGet (rawQueryVal reqTwoQueries) "a" = .vStr "x")
    ∧ (queryLookup reqTwoQueries.queries "b" = some ["y", "z"]
      ∧ objGet (rawQueryVal reqTwoQueries) "b" = .vArr [.vStr "y", .vStr "z"]) :=
  ⟨⟨rfl, (claim_C5_query_collapse.1 reqTwoQueries "a" ["x"] rfl).1 "x" rfl⟩,
   ⟨rfl, (claim_C5_query_collapse.1 reqTwoQueries "b" ["y", "z"] rfl).2 (by decide)⟩⟩

/-- C10: a provider whose evaluation resolves to `undefined` is stored in
a way no later lookup can observe (the cache-hit test is
`cached !== undefined`), so a subsequent resolution of the same provider
in the same request scope re-enters the provider body instead of
returning a memoized result. -/
theorem claim_C10_undefined_not_memoized (fuel f2 : Nat) (env : Env)
    (p : PName) (s s1 : Scope) (pd : ProviderDef)
    (hres : resolveProvider fuel env p s = (.ok .vUndef, s1))
    (henv : env p = some pd) :
    storeGet s1.store p = .vUndef
    ∧ ∃ t, (resolveProvider (f2 + 1) env p s1).2.evals = s1.evals ++ p :: t := by
  have hst : storeGet s1.store p = .vUndef :=
    resolveProvider_ok_sets fuel env p s .vUndef s1 hres
  refine ⟨hst, ?_⟩
  exact resolveProvider_miss_reenters f2 env p s1 pd (by rw [hst]; rfl) henv

/-- Witness for C10: the provider `u` resolving to `undefined` is invoked
again by a second resolution in the same scope (two body entries logged). -/
theorem claim_C10_undefined_not_memoized_witness :
    (resolveProvider 5 envUndef "u" emptyScope
      = (.ok .vUndef, (resolveProvider 5 envUndef "u" emptyScope).2)
    ∧ envUndef "u" = some (.base (.ok .vUndef))
    ∧ storeGet (resolveProvider 5 envUndef "u" emptyScope).2.store "u" = .vUndef)
    ∧ (resolveProvider 5 envUndef "u"
        (resolveProvider 5 envUndef "u" emptyScope).2).2.evals = ["u", "u"] :=
  ⟨⟨rfl, rfl,
    (claim_C10_undefined_not_memoized 5 4 envUndef "u" emptyScope
      (resolveProvider 5 envUndef "u" emptyScope).2 (.base (.ok .vUndef))
      rfl rfl).1⟩,
   rfl⟩

/-- C1 (amended): memoization shares a provider's value only with
resolutions that START after the first one has completed.  Once a
provider has resolved to a value other than `undefined`, its cached value
survives any further resolutions and every later resolution of it returns
the same value with the scope untouched, without re-entering the body; a
cache miss on a registered provider re-enters the body, so a fresh scope
(a separate request) evaluates it again.  Concretely, one chain that
awaits `C` twice in sequence evaluates `C` once and observes the same
value both times.  The wrapper's dependency block does NOT get this
sharing: it starts all top-level resolutions in one synchronous turn and
the store is written only after `await provider(ctx)`, so when `A` and
`B` each request `C` through the context, both cache checks miss and
`C`'s body runs twice per request even on success -- and a rejected
provider is never stored at all, so rejections are not shared either (see
the counterexample). -/
theorem claim_C1_memoization (f1 f2 f3 : Nat) (env : Env) (p : PName)
    (s s1 : Scope) (v : Val) (qs : List PName)
    (hres : resolveProvider f1 env p s = (.ok v, s1))
    (hv : isUndef v = false) :
    (resolveProvider (f3 + 1) env p ((resolveEach f2 env qs s1).2)
        = (.ok v, (resolveEach f2 env qs s1).2))
    ∧ (∀ pd s2, isUndef (storeGet s2.store p) = true → env p = some pd →
        ∃ t, (resolveProvider (f3 + 1) env p s2).2.evals = s2.evals ++ p :: t)
    ∧ ((resolveProvider 10 envChain "P" emptyScope).1
        = .ok (.vArr [.vNum 42, .vNum 42])
      ∧ (resolveProvider 10 envChain "P" emptyScope).2.evals = ["P", "C"]
      ∧ (runWithRequestScope (resolveProvider 10 envChain "C")).2.evals
        = ["C"]) := by
  refine ⟨?_, ?_, rfl, rfl, rfl⟩
  · have hst : storeGet s1.store p = v :=
      resolveProvider_ok_sets f1 env p s v s1 hres
    have hpres := (store_preserve f2).2.2 env qs s1 p (by rw [hst]; exact hv)
    rw [hst] at hpres
    have hcached := resolveProvider_cached f3 env p
      ((resolveEach f2 env qs s1).2) (by rw [hpres]; exact hv)
    rw [hpres] at hcached
    exact hcached
  · intro pd s2 hc henv
    exact resolveProvider_miss_reenters f3 env p s2 pd hc henv

/-- Witness for C1: once `C`'s first resolution has completed (its write
has landed), any later resolution of `C` in the same scope -- here after
further resolutions ran against that scope -- returns the memoized 42
with the scope untouched. -/
theorem claim_C1_memoization_witness :
    (resolveProvider 9 envDiamond "C" emptyScope
      = (.ok (.vNum 42), (resolveProvider 9 envDiamond "C" emptyScope).2)
    ∧ isUndef (.vNum 42 : Val) = false)
    ∧ resolveProvider 8 envDiamond "C"
        ((resolveEach 7 envDiamond ["A", "B"]
          (resolveProvider 9 envDiamond "C" emptyScope).2).2)
      = (.ok (.vNum 42),
         (resolveEach 7 envDiamond ["A", "B"]
          (resolveProvider 9 envDiamond "C" emptyScope).2).2) :=
  ⟨⟨rfl, rfl⟩,
   (claim_C1_memoization 9 7 7 envDiamond "C" emptyScope
     (resolveProvider 9 envDiamond "C" emptyScope).2 (.vNum 42) ["A", "B"]
     rfl rfl).1⟩

/-- Counterexample to C1 as stated: in the wrapper's dependency block all
top-level resolutions start in one synchronous turn, before any deferred
`store.set` lands, so in the success diamond both `A` and `B` miss the
cache and `C`'s body enters twice -- the log reads `["A", "C", "B", "C"]`
even though both observe the same 42 -- contradicting "C evaluates
exactly once".  When `C` fails, nothing is ever stored, so `C` likewise
enters twice and the rejection is not shared through the store,
contradicting "the same rejection, if it fails". -/
theorem claim_C1_counterexample :
    ((resolveDeps 10 envDiamond [("a", "A"), ("b", "B")] emptyScope).1
      = [("a", .ok (.vArr [.vNum 42])), ("b", .ok (.vArr [.vNum 42]))]
    ∧ (resolveDeps 10 envDiamond [("a", "A"), ("b", "B")] emptyScope).2.evals
      = ["A", "C", "B", "C"])
    ∧ ((resolveDeps 10 envDiamondFail [("a", "A"), ("b", "B")] emptyScope).1
      = [("a", .error "boom"), ("b", .error "boom")]
    ∧ (resolveDeps 10 envDiamondFail [("a", "A"), ("b", "B")] emptyScope).2.evals
      = ["A", "C", "B", "C"]) :=
  ⟨⟨rfl, rfl⟩, ⟨rfl, rfl⟩⟩

/-- C3: for a plain value or JSON handler result whose status carries a
declared application/json zod schema, successful validation sends the
validator's decoded output (not the raw result) with the produced status
and a JSON content type, while a failed validation raises the issue list
as a 500-class server error whose surfaced response never contains the
invalid payload. -/
theorem claim_C3_response_validation (resps : Val) (result : HandlerResult)
    (sch : Schema)
    (hnotRaw : ∀ t, result ≠ .rawResp t)
    (hsch : getValidationSchema resps (natKey (resultStatus result)) = some sch) :
    (∀ d, safeParse sch (resultData result) = .ok d →
      handlerOutcome (some resps) (.ok result)
        = .ok (.jsonSent d (resultStatus result))
      ∧ ∀ rr : RunResult, rr.outcome = .ok (.jsonSent d (resultStatus result)) →
          finalResponse rr
            = HttpResponse.mk (resultStatus result) "application/json" d)
    ∧ (∀ issues, safeParse sch (resultData result) = .error issues →
      handlerOutcome (some resps) (.ok result) = .error (.internal issues)
      ∧ Thrown.status (.internal issues) = 500
      ∧ surfaceThrown (.internal issues)
        = HttpResponse.mk 500 "text/plain" (.vStr "Internal Server Error")) := by
  cases result with
  | rawResp t => exact absurd rfl (hnotRaw t)
  | plainV v =>
    simp only [resultStatus, resultData] at hsch
    constructor
    · intro d hd
      simp only [resultStatus, resultData] at hd
      constructor
      · simp [handlerOutcome, responseBlock, resultStatus, resultData, hsch, hd]
      · intro rr hrr
        simp [finalResponse, hrr, resultStatus]
    · intro issues hi
      simp only [resultStatus, resultData] at hi
      refine ⟨?_, rfl, rfl⟩
      simp [handlerOutcome, responseBlock, resultStatus, resultData, hsch, hi]
  | jsonResp v st =>
    simp only [resultStatus, resultData] at hsch
    constructor
    · intro d hd
      simp only [resultStatus, resultData] at hd
      constructor
      · simp [handlerOutcome, responseBlock, resultStatus, resultData, hsch, hd]
      · intro rr hrr
        simp [finalResponse, hrr, resultStatus]
    · intro issues hi
      simp only [resultStatus, resultData] at hi
      refine ⟨?_, rfl, rfl⟩
      simp [handlerOutcome, responseBlock, resultStatus, resultData, hsch, hi]

/-- Witness for C3: a 201 JSON result validated against a schema with a
defaulted field is re-serialized from the decoded output (the default
`role` appears even though the handler never produced it), and an invalid
201 result turns into the internal 500 carrying the issue list. -/
theorem claim_C3_response_validation_witness :
    (getValidationSchema respsDecl (natKey (resultStatus resultGood))
        = some respSchema201
      ∧ resultData resultGood = .vObj [("name", .vStr "a")]
      ∧ safeParse respSchema201 (resultData resultGood)
        = .ok (.vObj [("name", .vStr "a"), ("role", .vStr "user")]))
    ∧ handlerOutcome (some respsDecl) (.ok resultGood)
      = .ok (.jsonSent (.vObj [("name", .vStr "a"), ("role", .vStr "user")]) 201)
    ∧ handlerOutcome (some respsDecl) (.ok resultBad)
      = .error (.internal [typeIssue "object"]) :=
  ⟨⟨rfl, rfl, rfl⟩,
   ((claim_C3_response_validation respsDecl resultGood respSchema201
      (fun _ h => HandlerResult.noConfusion h) rfl).1
     (.vObj [("name", .vStr "a"), ("role", .vStr "user")]) rfl).1,
   ((claim_C3_response_validation respsDecl resultBad respSchema201
      (fun _ h => HandlerResult.noConfusion h) rfl).2
     [typeIssue "object"] rfl).1⟩

/-- C4: registration normalizes the response spec once and that single
object is both stored in the route registry descriptor and closed over by
the request-time response validator; the document generator's merged
responses then emit, for every status declared by the route, that same
object's content entry verbatim -- there is no documentation-only copy to
drift from the validated schemas. -/
theorem claim_C4_single_responses_object (path method : String)
    (ro : Option Val) :
    (registerRoute path method ro).descriptor.responses
      = (registerRoute path method ro).wrapperResponses
    ∧ ∀ (gf rf : List (String × Val)) (stat : String),
        (registerRoute path method ro).descriptor.responses = some (.vObj rf) →
        rf.any (fun p => p.1 == stat) = true →
        objGet (objGet (buildDocResponses (docMergedResponses (.vObj gf)
            (registerRoute path method ro).descriptor)) stat) "content"
          = objGet (getField rf stat) "content" := by
  refine ⟨rfl, ?_⟩
  intro gf rf stat hresp hany
  have hmerge : docMergedResponses (.vObj gf)
      (registerRoute path method ro).descriptor = jsSpread (.vObj gf) (.vObj rf) := by
    rw [docMergedResponses, hresp]
  have hspread : jsSpread (.vObj gf) (.vObj rf)
      = .vObj (gf.map (fun p =>
          (p.1, if hasKeyB (.vObj rf) p.1 then getField rf p.1 else p.2))
        ++ rf.filter (fun p => !hasKeyB (.vObj gf) p.1)) := rfl
  have hkey : hasKeyB (.vObj rf) stat = true := by
    rw [hasKeyB]
    exact hany
  have hanyM : (gf.map (fun p =>
        (p.1, if hasKeyB (.vObj rf) p.1 then getField rf p.1 else p.2))
      ++ rf.filter (fun p => !hasKeyB (.vObj gf) p.1)).any
        (fun p => p.1 == stat) = true := by
    have hk := jsSpread_hasKey gf rf stat
    rw [hspread, hasKeyB] at hk
    rw [hk, hkey, Bool.or_true]
  have hget : getField (gf.map (fun p =>
        (p.1, if hasKeyB (.vObj rf) p.1 then getField rf p.1 else p.2))
      ++ rf.filter (fun p => !hasKeyB (.vObj gf) p.1)) stat
      = getField rf stat := by
    have hg := jsSpread_objGet gf rf stat
    rw [hspread, objGet] at hg
    rw [hg, if_pos hkey]
  rw [hmerge, hspread, buildDocResponses_content _ stat hanyM, hget]

/-- Witness for C4: registering a route with the canonical `201` spec
stores the very same normalized object in the descriptor and in the
wrapper, and the generated document's `201` content is that object's
content verbatim. -/
theorem claim_C4_single_responses_object_witness :
    ((registerRoute "/pets" "post" (some respsDecl)).descriptor.responses
      = (registerRoute "/pets" "post" (some respsDecl)).wrapperResponses)
    ∧ ((registerRoute "/pets" "post" (some respsDecl)).descriptor.responses
        = some (.vObj (fieldsOf respsDecl))
      ∧ (fieldsOf respsDecl).any (fun p => p.1 == "201") = true
      ∧ objGet (objGet (buildDocResponses (docMergedResponses (.vObj [])
            (registerRoute "/pets" "post" (some respsDecl)).descriptor)) "201")
          "content"
        = objGet (getField (fieldsOf respsDecl) "201") "content") :=
  ⟨(claim_C4_single_responses_object "/pets" "post" (some respsDecl)).1,
   rfl, rfl,
   (claim_C4_single_responses_object "/pets" "post" (some respsDecl)).2
     [] (fieldsOf respsDecl) "201" rfl rfl⟩

/-- C7: the document's security requirement for a route follows the
precedence explicit > derived-from-tagged-providers > global default, and
a dependency tagged scheme `bearerAuth` with scopes `["read"]` derives the
requirement `[{bearerAuth: [read]}]`. -/
theorem claim_C7_security_precedence
    (deps : List (String × ProviderDef)) (globalSec : Option (List SecurityReq)) :
    (∀ s, effectiveSecurity (routeSecurity (some s) deps) globalSec = some s)
    ∧ (∀ ds, deriveSecurity deps = some ds →
        effectiveSecurity (routeSecurity none deps) globalSec = some ds)
    ∧ (deriveSecurity deps = none →
        effectiveSecurity (routeSecurity none deps) globalSec = globalSec)
    ∧ deriveSecurity depsBearer
      = some [{ scheme := "bearerAuth", scopes := ["read"] }] := by
  refine ⟨fun s => rfl, ?_, ?_, rfl⟩
  · intro ds h
    simp [effectiveSecurity, routeSecurity, h]
  · intro h
    simp [effectiveSecurity, routeSecurity, h]

/-- Witness for C7 at concrete routes: an explicit `apiKey` requirement
beats the derived one, the tagged `bearerAuth` dependency is used when no
explicit security is declared, and a route with neither falls back to the
global default. -/
theorem claim_C7_security_precedence_witness :
    effectiveSecurity (routeSecurity
        (some [{ scheme := "apiKey", scopes := [] }]) depsBearer)
        (some [{ scheme := "global", scopes := [] }])
      = some [{ scheme := "apiKey", scopes := [] }]
    ∧ (deriveSecurity depsBearer
        = some [{ scheme := "bearerAuth", scopes := ["read"] }]
      ∧ effectiveSecurity (routeSecurity none depsBearer)
          (some [{ scheme := "global", scopes := [] }])
        = some [{ scheme := "bearerAuth", scopes := ["read"] }])
    ∧ (deriveSecurity [] = none
      ∧ effectiveSecurity (routeSecurity none [])
          (some [{ scheme := "global", scopes := [] }])
        = some [{ scheme := "global", scopes := [] }]) :=
  ⟨(claim_C7_security_precedence depsBearer
      (some [{ scheme := "global", scopes := [] }])).1
    [{ scheme := "apiKey", scopes := [] }],
   ⟨rfl,
    (claim_C7_security_precedence depsBearer
      (some [{ scheme := "global", scopes := [] }])).2.1
      [{ scheme := "bearerAuth", scopes := ["read"] }] rfl⟩,
   ⟨rfl,
    (claim_C7_security_precedence []
      (some [{ scheme := "global", scopes := [] }])).2.2.1 rfl⟩⟩

/-- C2 (amended): in the collect-all wrapper of src/core/api.ts every
declared field group is validated regardless of earlier failures, the
failures are aggregated into one map keyed by group name, the handler
runs exactly when that map is empty, and otherwise the thrown 400
response carries the aggregated issues as its JSON body.  (The fail-fast
wrapper of src/hono/api.ts does not satisfy the all-groups part; see the
counterexample.) -/
theorem claim_C2_collect_all (cfg : WrapConfig) (deps : List (String × PName))
    (env : Env) (fuel : Nat) (handler : HandlerFn) (req : Request) :
    (runCore cfg deps env fuel handler req).validated = declaredGroups cfg
    ∧ (runCore cfg deps env fuel handler req).handlerRan
        = (allGroupIssues cfg req).isEmpty
    ∧ (allGroupIssues cfg req ≠ [] →
        (runCore cfg deps env fuel handler req).outcome
          = .error (.badRequest (allGroupIssues cfg req))
        ∧ surfaceThrown (.badRequest (allGroupIssues cfg req))
          = HttpResponse.mk 400 "application/json"
              (errorsToVal (allGroupIssues cfg req))) :=
  ⟨runCore_validated cfg deps env fuel handler req,
   runCore_handlerRan cfg deps env fuel handler req,
   fun h => ⟨runCore_badRequest cfg deps env fuel handler req h, rfl⟩⟩

/-- Witness for C2: a request failing both declared groups still has both
validated, the handler is skipped, and the 400 carries both groups'
issues. -/
theorem claim_C2_collect_all_witness :
    (runCore cfgTwoGroups [] envDiamond 1 awaitingHandler reqEmpty).validated
      = ["params", "query"]
    ∧ (runCore cfgTwoGroups [] envDiamond 1 awaitingHandler reqEmpty).handlerRan
      = false
    ∧ (allGroupIssues cfgTwoGroups reqEmpty ≠ []
      ∧ (runCore cfgTwoGroups [] envDiamond 1 awaitingHandler reqEmpty).outcome
        = .error (.badRequest (allGroupIssues cfgTwoGroups reqEmpty))) :=
  ⟨(claim_C2_collect_all cfgTwoGroups [] envDiamond 1
      awaitingHandler reqEmpty).1.trans rfl,
   (claim_C2_collect_all cfgTwoGroups [] envDiamond 1
      awaitingHandler reqEmpty).2.1.trans rfl,
   by decide,
   ((claim_C2_collect_all cfgTwoGroups [] envDiamond 1
      awaitingHandler reqEmpty).2.2 (by decide)).1⟩

/-- Counterexample to C2 as stated: the repo's fail-fast wrapper
(src/hono/api.ts, one of the claim's cited sources) stops at the first
invalid group, so on a request where both declared groups are invalid
only `params` is validated -- `query` is declared and invalid yet never
validated -- and the thrown 400 carries only the params issues instead of
the aggregated map. -/
theorem claim_C2_counterexample :
    "query" ∈ declaredGroups cfgTwoGroups
    ∧ groupIssues "query" cfgTwoGroups.queryS (rawQueryVal reqEmpty) ≠ []
    ∧ (runHono cfgTwoGroups [] envDiamond 1 awaitingHandler reqEmpty).validated
      = ["params"]
    ∧ (runHono cfgTwoGroups [] envDiamond 1 awaitingHandler reqEmpty).outcome
      = .error (.failFast "params" [prefixIssue "id" (typeIssue "number")]) :=
  ⟨by decide, by decide, rfl, rfl⟩

/-- C8 (amended): an authorization-wrapped provider applies `authCheck`
to the resolved inner principal: a falsy principal rejects with the
message `unauthorized`, and a principal missing a required scope rejects
with `forbidden`.  These rejections are plain `Error`s, not
`HTTPException`s, so they surface through the generic error handler with
status 500, not as 401/403-class responses. -/
theorem claim_C8_auth_resolution (fuel : Nat) (env : Env)
    (scheme : String) (scopes : Option (List String)) (inner : PName)
    (s s1 : Scope) (user : Val)
    (hin : resolveProvider fuel env inner s = (.ok user, s1)) :
    evalProviderBody (fuel + 1) env (.authWrapped scheme scopes inner) s
      = (authCheck scopes user, s1)
    ∧ (jsFalsy user = true → authCheck scopes user = .error "unauthorized")
    ∧ (∀ required, scopes = some required → jsFalsy user = false →
        required.length > 0 → (missingScopes required user).length > 0 →
        authCheck scopes user = .error "forbidden")
    ∧ Thrown.status (.plainErr "unauthorized") = 500
    ∧ Thrown.status (.plainErr "forbidden") = 500
    ∧ (surfaceThrown (.plainErr "unauthorized")).status = 500 := by
  refine ⟨?_, ?_, ?_, rfl, rfl, rfl⟩
  · simp only [evalProviderBody, hin]
  · intro hf
    simp [authCheck, hf]
  · intro required hs hf hlen hmiss
    subst hs
    simp [authCheck, hf, hlen, hmiss]

/-- Witness for C8: the null principal of `envNoPrincipal` rejects with
`unauthorized` through the wrapped provider body, and the `["read"]`
principal of `envScoped` rejects the `["read", "write"]` requirement with
`forbidden`. -/
theorem claim_C8_auth_resolution_witness :
    (resolveProvider 4 envNoPrincipal "principal" emptyScope
      = (.ok .vNull, (resolveProvider 4 envNoPrincipal "principal" emptyScope).2)
    ∧ evalProviderBody 5 envNoPrincipal
        (.authWrapped "bearerAuth" none "principal") emptyScope
      = (authCheck none .vNull,
         (resolveProvider 4 envNoPrincipal "principal" emptyScope).2)
    ∧ authCheck none .vNull = .error "unauthorized")
    ∧ (jsFalsy eveUser = false
    ∧ missingScopes ["read", "write"] eveUser = ["write"]
    ∧ authCheck (some ["read", "write"]) eveUser = .error "forbidden") :=
  ⟨⟨rfl,
    (claim_C8_auth_resolution 4 envNoPrincipal "bearerAuth" none "principal"
      emptyScope (resolveProvider 4 envNoPrincipal "principal" emptyScope).2
      .vNull rfl).1,
    (claim_C8_auth_resolution 4 envNoPrincipal "bearerAuth" none "principal"
      emptyScope (resolveProvider 4 envNoPrincipal "principal" emptyScope).2
      .vNull rfl).2.1 rfl⟩,
   ⟨rfl, rfl,
    (claim_C8_auth_resolution 4 envScoped "bearerAuth" (some ["read", "write"])
      "principal" emptyScope
      (resolveProvider 4 envScoped "principal" emptyScope).2
      eveUser rfl).2.2.1 ["read", "write"] rfl rfl (by decide) (by decide)⟩⟩

/-- Counterexample to C8 as stated: the rejections are plain `Error`s and
the dependency promises are handed to the handler unawaited, so on the
no-principal route the handler does run, and awaiting the dependency
re-raises the rejection, which the generic error handler surfaces as a
500 -- not a 401 -- response; the missing-scope route likewise surfaces
500, not 403. -/
theorem claim_C8_counterexample :
    ((runCore cfgNone [("u", "user")] envNoPrincipal 5 awaitingHandler
        reqEmpty).handlerRan = true
      ∧ (runCore cfgNone [("u", "user")] envNoPrincipal 5 awaitingHandler
          reqEmpty).outcome = .error (.plainErr "unauthorized")
      ∧ (finalResponse (runCore cfgNone [("u", "user")] envNoPrincipal 5
          awaitingHandler reqEmpty)).status = 500)
    ∧ ((runCore cfgNone [("u", "user")] envScoped 5 awaitingHandler
        reqEmpty).handlerRan = true
      ∧ (runCore cfgNone [("u", "user")] envScoped 5 awaitingHandler
          reqEmpty).outcome = .error (.plainErr "forbidden")
      ∧ (finalResponse (runCore cfgNone [("u", "user")] envScoped 5
          awaitingHandler reqEmpty)).status = 500) :=
  ⟨⟨rfl, rfl, rfl⟩, ⟨rfl, rfl, rfl⟩⟩

/-- C9 (amended): the gated reader of src/unnamed/part_008 reads and
validates the body exactly when a schema is declared for the media types
AND the content length is positive or the body is marked required; with
no spec, no matching schema, or a zero-length optional body it returns
without reading the payload.  (The collect-all core variant of
src/core/api.ts does not implement the gate; see the counterexample.) -/
theorem claim_C9_body_gate (req : Request) (ct : String)
    (rb : NormRequestBody) :
    parseRequestBody req ct none = ParseAttempt.mk none []
    ∧ (∀ sch, getRequestBodyValidationSchema rb (mediaTypesFor ct) = some sch →
        ((bodyLengthOf req).1 > 0 ∨ rb.required = true →
          (parseRequestBody req ct (some rb)).result
            = some (safeParse sch (rawBodyFor req ct))
          ∧ (parseRequestBody req ct (some rb)).reads
            = (bodyLengthOf req).2
              ++ [if ct = "json" then "json" else "parseBody"])
        ∧ ((bodyLengthOf req).1 = 0 → rb.required = false →
          (parseRequestBody req ct (some rb)).result = none
          ∧ (parseRequestBody req ct (some rb)).reads = (bodyLengthOf req).2))
    ∧ (getRequestBodyValidationSchema rb (mediaTypesFor ct) = none →
        (parseRequestBody req ct (some rb)).result = none
        ∧ (parseRequestBody req ct (some rb)).reads = (bodyLengthOf req).2) := by
  refine ⟨rfl, ?_, ?_⟩
  · intro sch hs
    constructor
    · intro hgate
      have hcond : ((bodyLengthOf req).1 > 0 || rb.required) = true := by
        rcases hgate with h | h
        · simp [h]
        · simp [h]
      constructor <;> simp [parseRequestBody, hs, hcond]
    · intro hlen hreq
      have hcond : ((bodyLengthOf req).1 > 0 || rb.required) = false := by
        simp [hlen, hreq]
      constructor <;> simp [parseRequestBody, hs, hcond]
  · intro hs
    constructor <;> simp [parseRequestBody, hs]

/-- Witness for C9: a positive-length request is read and validated
through the gate, while the same spec on a zero-length optional body is
neither read nor validated. -/
theorem claim_C9_body_gate_witness :
    (getRequestBodyValidationSchema rbJson (mediaTypesFor "json")
        = some (.objSch [("title", .strSch)])
      ∧ (bodyLengthOf reqBody5).1 > 0
      ∧ (parseRequestBody reqBody5 "json" (some rbJson)).result
        = some (safeParse (.objSch [("title", .strSch)])
            (rawBodyFor reqBody5 "json"))
      ∧ (parseRequestBody reqBody5 "json" (some rbJson)).reads = ["json"])
    ∧ ((bodyLengthOf reqEmpty).1 = 0
      ∧ rbJson.required = false
      ∧ (parseRequestBody reqEmpty "json" (some rbJson)).result = none
      ∧ (parseRequestBody reqEmpty "json" (some rbJson)).reads = []) :=
  ⟨⟨rfl, by decide,
    (((claim_C9_body_gate reqBody5 "json" rbJson).2.1
        (.objSch [("title", .strSch)]) rfl).1 (Or.inl (by decide))).1,
    ((((claim_C9_body_gate reqBody5 "json" rbJson).2.1
        (.objSch [("title", .strSch)]) rfl).1 (Or.inl (by decide))).2).trans rfl⟩,
   ⟨rfl, rfl,
    (((claim_C9_body_gate reqEmpty "json" rbJson).2.1
        (.objSch [("title", .strSch)]) rfl).2 rfl rfl).1,
    ((((claim_C9_body_gate reqEmpty "json" rbJson).2.1
        (.objSch [("title", .strSch)]) rfl).2 rfl rfl).2).trans rfl⟩⟩

/-- Counterexample to C9 as stated: on the very request where the gate is
closed (content length 0, body not required) the gated reader consumes
nothing, yet the collect-all core variant -- one of the claim's cited
sources -- still reads the JSON body from the transport, because its read
is guarded only by the presence of a declared schema. -/
theorem claim_C9_counterexample :
    (bodyLengthOf reqEmpty).1 = 0
    ∧ rbJson.required = false
    ∧ (parseRequestBody reqEmpty "json" (some rbJson)).reads = []
    ∧ cfgBodyOnly.bodyS.isSome = true
    ∧ (validateCore cfgBodyOnly reqEmpty).1.reads = ["json"] :=
  ⟨rfl, rfl, rfl, rfl, rfl⟩

end BetterApi
